import Mathlib

/-!
# Nexus task broker: a shallow embedding of `tasks.go` and `connections.go`

Conventions of the embedding.

* A Go `interface{}` is `Any = Option Val`: `none` is the nil interface, and
  `some Val.nilPtr` is an interface holding the typed nil pointer `(*int)(nil)`
  (the `null` variable of `sendWorker` and `handleTaskReq`).
* Go strings are Lean strings, one character per byte (identifiers are ASCII);
  `s[0:n]` is `goSlice0 s n`, which is `none` when Go would panic.
* In a row, `result` and `errCode` are `none` when the field is absent from
  the document; a null written by an update is the present value `Dyn.null`.
* The `tasks` table is a list of rows.  A ReQL `Update` is `reqlUpdate`: the
  selected rows are rewritten and `Replaced` counts the rows that really
  changed, `Unchanged` those that did not, as RethinkDB reports them.
* `r.Now()` is an integer time given as an argument; durations are integers.
* Each query is one atomic step on the store.  A write whose `err` the source
  inspects takes that outcome as an argument (`true`: the query returned an
  error and was not applied); a write whose outcome the source discards is
  modelled as executed by the store.
* What lives outside `src/` (error constants, `ErrStr`, `prefixes`,
  `getPathMethod`, the conversions of the `ei` library) is a field of `Env`.
-/

set_option autoImplicit false

namespace Nexus

/-! ## Values -/

/-- Dynamic value held by a non-nil Go `interface{}`: the typed nil pointer,
a JSON scalar, or the JSON text of an array or object the broker never looks into. -/
inductive Val where
  | nilPtr
  | bool (b : Bool)
  | num (n : Int)
  | str (s : String)
  | raw (json : String)
  deriving DecidableEq, Repr

/-- Go `interface{}` holding a payload; `none` is the nil interface. -/
abbrev Any := Option Val

/-- Go `map[string]interface{}` with payload values, as an association list. -/
abbrev GoMap := List (String × Any)

/-- Go map read `m[k]` with the `ok` flag: `none` when the key is missing. -/
def GoMap.get (m : GoMap) (k : String) : Option Any :=
  match m with
  | [] => none
  | (k', v) :: rest => if k' = k then some v else GoMap.get rest k

/-- Go map write `m[k] = v`. -/
def GoMap.set (m : GoMap) (k : String) (v : Any) : GoMap :=
  match m with
  | [] => [(k, v)]
  | (k', v') :: rest => if k' = k then (k, v) :: rest else (k', v') :: GoMap.set rest k v

/-- What a `Result` field can hold: a payload, a flat map such as `{"ok": true}`,
the descriptor map that `taskPull` builds for a pull-record, or, in a stored
row only, the JSON null that an update with a nil value writes. -/
inductive Dyn where
  | null
  | val (v : Val)
  | map (m : GoMap)
  | descr (taskid path method : String) (params : Any) (tags : GoMap)
  deriving DecidableEq, Repr

/-- Embedding of a payload `interface{}` into a result `interface{}`. -/
def Dyn.ofAny (a : Any) : Option Dyn := a.map Dyn.val

/-- The value that an update `"result": a` stores in the row: a nil `a` is
stored as a JSON null, so that the field is present afterwards. -/
def Dyn.stored (a : Any) : Dyn :=
  match a with
  | none => Dyn.null
  | some v => Dyn.val v

/-- Decoding of a stored `result` field into the Go struct: an absent field and
a stored null both give the nil interface. -/
def goDecode (r : Option Dyn) : Option Dyn :=
  match r with
  | some Dyn.null => none
  | other => other

/-! ## Go strings -/

/-- Go `s[0:n]`: the first `n` bytes, `none` (a run-time panic) when `len(s) < n`. -/
def goSlice0 (s : String) (n : Nat) : Option String :=
  if s.length < n then none else some (String.mk (s.data.take n))

/-- Go `s[n:]`: `none` (a run-time panic) when `len(s) < n`. -/
def goSliceFrom (s : String) (n : Nat) : Option String :=
  if s.length < n then none else some (String.mk (s.data.drop n))

/-- Go `strings.HasPrefix`. -/
def hasPrefix (s p : String) : Bool := p.data.isPrefixOf s.data

/-- Go `strings.HasSuffix`. -/
def hasSuffix (s p : String) : Bool := p.data.isSuffixOf s.data

/-- Lexicographic order on code points (the order of the primary key index). -/
def ltChars : List Char → List Char → Bool
  | _, [] => false
  | [], _ :: _ => true
  | a :: as, b :: bs =>
    if a.toNat < b.toNat then true
    else if b.toNat < a.toNat then false
    else ltChars as bs

/-- The Go string with the single code point U+FFFF, which `tasks.go` appends
to a prefix to close a range of ids. -/
def rangeEnd : String := String.singleton (Char.ofNat 65535)

/-- ReQL `Between(lo, hi)` on the primary key: closed on the left, open on the right. -/
def between (lo hi key : String) : Bool :=
  !ltChars key.data lo.data && ltChars key.data hi.data

/-! ## Rows of the `tasks` table -/

/-- Go struct `Task`.  `ErrCode *int` is `Option Int`; `ErrStr` is the empty
string when absent. -/
structure Task where
  id : String
  stat : String
  path : String
  method : String
  params : Any
  localId : Any
  tses : String
  result : Option Dyn
  errCode : Option Int
  errStr : String
  errObj : Any
  tags : Option GoMap
  creationTime : Option Int
  deadLine : Option Int
  deriving DecidableEq, Repr

/-- Go struct `TaskFeed`. -/
structure TaskFeed where
  old : Option Task
  new : Option Task
  deriving DecidableEq, Repr

/-- The `tasks` table. -/
abbrev Store := List Task

/-- Counters of a ReQL write response that the broker reads. -/
structure WriteRes where
  replaced : Nat
  unchanged : Nat
  skipped : Nat
  deleted : Nat
  inserted : Nat
  changes : List (Task × Task)
  deriving DecidableEq, Repr

/-- The write response of a query that touched nothing. -/
def WriteRes.zero : WriteRes :=
  { replaced := 0, unchanged := 0, skipped := 0, deleted := 0, inserted := 0, changes := [] }

/-- ReQL `Update` on one selected row: the row is replaced by `f row`; it counts
as `Replaced` when the document changed and as `Unchanged` otherwise. -/
def reqlUpdateRow (f : Task → Task) (t : Task) : Task × WriteRes :=
  if f t = t then (t, { WriteRes.zero with unchanged := 1 })
  else (f t, { WriteRes.zero with replaced := 1, changes := [(t, f t)] })

/-- Sum of two write responses. -/
def WriteRes.add (a b : WriteRes) : WriteRes :=
  { replaced := a.replaced + b.replaced, unchanged := a.unchanged + b.unchanged,
    skipped := a.skipped + b.skipped, deleted := a.deleted + b.deleted,
    inserted := a.inserted + b.inserted, changes := a.changes ++ b.changes }

/-- ReQL `selection.Update(f)`: every row of the selection is updated in place. -/
def reqlUpdate (sel : Task → Bool) (f : Task → Task) : Store → Store × WriteRes
  | [] => ([], WriteRes.zero)
  | t :: ts =>
    let rest := reqlUpdate sel f ts
    if sel t then
      let one := reqlUpdateRow f t
      (one.1 :: rest.1, one.2.add rest.2)
    else (t :: rest.1, rest.2)

/-- ReQL `Get(id).Update(f)`: a missing row is reported as `Skipped`. -/
def reqlGetUpdate (id : String) (f : Task → Task) (s : Store) : Store × WriteRes :=
  if s.any (fun t => t.id = id) then reqlUpdate (fun t => t.id = id) f s
  else (s, { WriteRes.zero with skipped := 1 })

/-- ReQL `selection.Delete()`. -/
def reqlDelete (sel : Task → Bool) (s : Store) : Store × WriteRes :=
  (s.filter (fun t => !sel t),
   { WriteRes.zero with deleted := (s.filter sel).length })

/-- ReQL `Insert(row)`: refused (an error, nothing inserted) when the primary key exists. -/
def reqlInsert (t : Task) (s : Store) : Option Store :=
  if s.any (fun u => u.id = t.id) then none else some (s ++ [t])

/-- Row lookup by primary key. -/
def getRow (s : Store) (id : String) : Option Task := s.find? (fun t => t.id = id)

/-! ## What the sources import from outside `src/` -/

/-- Constants and helpers that `tasks.go` and `connections.go` use but that are
declared elsewhere: the error codes and their `ErrStr` table, the node
identifier, `prefixes`, `getPathMethod`, and the conversions of the `ei`
library on a value that was found (`none`: the conversion reports an error). -/
structure Env where
  nodeId : String
  ErrParse : Int
  ErrInvalidRequest : Int
  ErrMethodNotFound : Int
  ErrInvalidParams : Int
  ErrInternal : Int
  ErrInvalidTask : Int
  ErrPermissionDenied : Int
  ErrTimeout : Int
  ErrCancel : Int
  ErrStr : Int → String
  prefixes : String → List String
  getPathMethod : String → String × String
  eiString : Any → Option String
  eiBool : Any → Option Bool
  eiInt : Any → Option Int
  eiFloat64 : Any → Option Int

/-- The chain `ei.N(m).M(key).StringZ()`: the empty string on a missing key or a failed conversion. -/
def Env.stringZ (E : Env) (m : GoMap) (key : String) : String :=
  match m.get key with
  | none => ""
  | some v => (E.eiString v).getD ""

/-- The chain `ei.N(m).M(key).BoolZ()`. -/
def Env.boolZ (E : Env) (m : GoMap) (key : String) : Bool :=
  match m.get key with
  | none => false
  | some v => (E.eiBool v).getD false

/-- The chain `ei.N(m).M(key).IntZ()`. -/
def Env.intZ (E : Env) (m : GoMap) (key : String) : Int :=
  match m.get key with
  | none => 0
  | some v => (E.eiInt v).getD 0

/-- The chain `ei.N(m).M(key).Float64Z()`. -/
def Env.float64Z (E : Env) (m : GoMap) (key : String) : Int :=
  match m.get key with
  | none => 0
  | some v => (E.eiFloat64 v).getD 0

/-- The chain `ei.N(m).M(key).RawZ()`: nil on a missing key. -/
def rawZ (m : GoMap) (key : String) : Any :=
  match m.get key with
  | none => none
  | some v => v

/-! ## JSON-RPC structures (`connections.go`) -/

/-- Go struct `JsonRpcErr`. -/
structure JsonRpcErr where
  code : Int
  message : String
  data : Any
  deriving DecidableEq, Repr

/-- Go struct `JsonRpcReq`.  `params` lists the members of the `Params` object
as `ei.N(req.Params).M(key)` sees them (a `Params` that is not an object has none). -/
structure JsonRpcReq where
  jsonrpc : String
  id : Any
  method : String
  params : GoMap
  deriving DecidableEq, Repr

/-- Go struct `JsonRpcRes`. -/
structure JsonRpcRes where
  jsonrpc : String
  id : Any
  result : Option Dyn
  error : Option JsonRpcErr
  deriving DecidableEq, Repr

/-- The user record of a connection: `Tags` maps a dotted name to a tag map. -/
structure UserData where
  tags : Option (List (String × GoMap))

/-- The fields of `NexusConn` that the request handlers read. -/
structure NexusConn where
  connId : String
  user : Option UserData

/-- `NewNexusConn`: the connection id is `nodeId + safeId(4)`; `rnd4` is the
value `safeId(4)` returned. -/
def NewNexusConn (E : Env) (rnd4 : String) : NexusConn :=
  { connId := E.nodeId ++ rnd4, user := none }

/-- `(*JsonRpcReq).Error`: the response it pushes to the response queue. -/
def JsonRpcReq.Error (E : Env) (req : JsonRpcReq) (code : Int) (message : String) (data : Any) :
    JsonRpcRes :=
  let message :=
    if code < 0 then
      if message ≠ "" then E.ErrStr code ++ ":[" ++ message ++ "]" else E.ErrStr code
    else message
  { jsonrpc := "", id := req.id, result := none,
    error := some { code := code, message := message, data := data } }

/-- `(*JsonRpcReq).Result`: the response it pushes to the response queue. -/
def JsonRpcReq.Result (req : JsonRpcReq) (result : Option Dyn) : JsonRpcRes :=
  { jsonrpc := "", id := req.id, result := result, error := none }

/-- The inner loop of `getTags`: every entry of `tm` is written into `tags`. -/
def mergeTags (tags : GoMap) (tm : GoMap) : GoMap :=
  tm.foldl (fun acc kv => acc.set kv.1 kv.2) tags

/-- Lookup in `nc.user.Tags`. -/
def lookupTagMap (all : List (String × GoMap)) (pf : String) : Option GoMap :=
  match all with
  | [] => none
  | (k, tm) :: rest => if k = pf then some tm else lookupTagMap rest pf

/-- `(*NexusConn).getTags`. -/
def NexusConn.getTags (E : Env) (nc : NexusConn) (pfx : String) : GoMap :=
  match nc.user with
  | none => []
  | some u =>
    match u.tags with
    | none => []
    | some all =>
      (E.prefixes pfx).foldl
        (fun tags pf =>
          match lookupTagMap all pf with
          | some tm => mergeTags tags tm
          | none => tags)
        []

/-! ## Queries of `tasks.go` -/

/-- ReQL `r.Branch(cond, patch, empty map)` used as an update function. -/
def branch (cond : Task → Bool) (patch : Task → Task) (t : Task) : Task :=
  if cond t then patch t else t

/-- Selection `Between(r.MinVal, now)` on the index `deadLine` (right bound open). -/
def expired (now : Int) (t : Task) : Bool :=
  match t.deadLine with
  | some d => decide (d < now)
  | none => false

/-- The patch of the first purge query. -/
def timeoutPatch (E : Env) (now : Int) (t : Task) : Task :=
  { t with stat := "done", errCode := some E.ErrTimeout, errStr := E.ErrStr E.ErrTimeout,
           deadLine := some (now + 600) }

/-- First query of a purge tick: expired rows that are not done are timed out. -/
def purgeUpdate (E : Env) (now : Int) (s : Store) : Store × WriteRes :=
  reqlUpdate (expired now) (branch (fun t => decide (t.stat ≠ "done")) (timeoutPatch E now)) s

/-- Second query of a purge tick: expired rows that are done are deleted. -/
def purgeDelete (now : Int) (s : Store) : Store × WriteRes :=
  reqlDelete (fun t => expired now t && decide (t.stat = "done")) s

/-- One tick of `taskPurge`: the two queries, each with its own `r.Now()`. -/
def taskPurgeTick (E : Env) (now1 now2 : Int) (s : Store) : Store :=
  (purgeDelete now2 (purgeUpdate E now1 s).1).1

/-- `deleteTask`. -/
def deleteTask (id : String) (s : Store) : Store :=
  (reqlDelete (fun t => decide (t.id = id)) s).1

/-- The patch of the claim in `taskPull`. -/
def pullClaimPatch (tses : String) (t : Task) : Task :=
  { t with stat := "working", tses := tses }

/-- The patch of the claim in `taskWakeup`. -/
def wakeupClaimPatch (t : Task) : Task :=
  { t with stat := "working" }

/-- The conditional claim update on one row:
`Update(r.Branch(stat == "waiting", patch, empty map))`. -/
def claimRow (patch : Task → Task) (t : Task) : Task × WriteRes :=
  reqlUpdateRow (branch (fun t => decide (t.stat = "waiting")) patch) t

/-- The claim query
`GetAllByIndex("stat_path", ["waiting", pfx]).Sample(1).Update(Branch ...)`.
`sample` is the primary key of the row that `Sample(1)` drew from the index
(`none`: the selection was empty).  The path of a row never changes; its stat
is tested again by the `Branch` when the row is written. -/
def claimQuery (pfx : String) (patch : Task → Task) (sample : Option String) (s : Store) :
    Store × WriteRes :=
  match sample with
  | none => (s, WriteRes.zero)
  | some id =>
    reqlUpdate (fun t => decide (t.id = id) && decide (t.path = pfx))
      (branch (fun t => decide (t.stat = "waiting")) patch) s

/-- The patch that completes a pull-record. -/
def pullDonePatch (result : Dyn) (now : Int) (t : Task) : Task :=
  { t with stat := "done", result := some result, deadLine := some (now + 600) }

/-- The pull-record update of `taskPull` (lines 124-129). -/
def pullDoneQuery (id : String) (result : Dyn) (now : Int) (s : Store) : Store × WriteRes :=
  reqlGetUpdate id (branch (fun t => decide (t.stat = "working")) (pullDonePatch result now)) s

/-- The patch `stat: "waiting"`. -/
def waitingPatch (t : Task) : Task :=
  { t with stat := "waiting" }

/-- The rollback of `taskPull` (lines 131-134): an unconditional update. -/
def rollbackQuery (taskid : String) (s : Store) : Store × WriteRes :=
  reqlGetUpdate taskid waitingPatch s

/-- The last update of `taskPull` (lines 145-150): the pull-record is parked. -/
def parkQuery (id : String) (s : Store) : Store × WriteRes :=
  reqlGetUpdate id (branch (fun t => decide (t.stat = "working")) waitingPatch) s

/-- What the surroundings decide in one pass of the loop of `taskPull`: whether
the claim query returned an error, which row `Sample(1)` drew, and whether the
pull-record update returned an error. -/
structure PullTurn where
  claimErr : Bool
  sample : Option String
  presErr : Bool
  deriving DecidableEq, Repr

/-- The local `pfx` of `taskPull`: the path without a leading `@pull.`. -/
def pullPrefix (task : Task) : String :=
  if hasPrefix task.path "@pull." then String.mk (task.path.data.drop 6) else task.path

/-- The descriptor `result` that `taskPull` builds from the claimed row. -/
def pullDescriptor (newTask : Task) : Dyn :=
  Dyn.descr newTask.id newTask.path newTask.method newTask.params (newTask.tags.getD [])

/-- `taskPull`.  One `PullTurn` is consumed per pass of the loop; the result is
`none` when the function does not return: the turns are used up while the loop
still spins, or `task.Id[0:16]` panics. -/
def taskPull (now : Int) (task : Task) : List PullTurn → Store → Option (Store × Bool)
  | [], _ => none
  | o :: os, s =>
    match goSlice0 task.id 16 with
    | none => none
    | some tses =>
      if o.claimErr then some ((parkQuery task.id s).1, false)
      else
        let w := claimQuery (pullPrefix task) (pullClaimPatch tses) o.sample s
        if w.2.replaced > 0 then
          match w.2.changes.head? with
          | none => none
          | some ch =>
            let result := pullDescriptor ch.2
            let p := pullDoneQuery task.id result now w.1
            if o.presErr then
              some ((parkQuery task.id (rollbackQuery ch.2.id w.1).1).1, false)
            else if p.2.replaced ≠ 1 then
              some ((parkQuery task.id (rollbackQuery ch.2.id p.1).1).1, false)
            else some (p.1, true)
        else if w.2.unchanged > 0 then taskPull now task os w.1
        else some ((parkQuery task.id w.1).1, false)

/-- What the surroundings decide in one pass of the loop of `taskWakeup`. -/
structure WakeTurn where
  err : Bool
  sample : Option String
  deriving DecidableEq, Repr

/-- `taskWakeup`; `none` when the turns are used up while the loop still spins. -/
def taskWakeup (task : Task) : List WakeTurn → Store → Option (Store × Bool)
  | [], _ => none
  | o :: os, s =>
    if o.err then some (s, false)
    else
      let w := claimQuery ("@pull." ++ task.path) wakeupClaimPatch o.sample s
      if w.2.replaced > 0 then some (w.1, true)
      else if w.2.unchanged > 0 then taskWakeup task os w.1
      else some (w.1, false)

/-! ## `handleTaskReq` -/

/-- The map `{"ok": true}` that the handlers return. -/
def okResult : Dyn := Dyn.map [("ok", some (Val.bool true))]

/-- The patch of `task.cancel`. -/
def cancelPatch (E : Env) (now : Int) (t : Task) : Task :=
  { t with stat := "done", errCode := some E.ErrCancel, errStr := E.ErrStr E.ErrCancel,
           deadLine := some (now + 600) }

/-- The selection of `task.cancel`:
`Between(connId, connId + U+FFFF).Filter(localId == id)`. -/
def cancelSel (connId : String) (id : Any) (t : Task) : Bool :=
  between connId (connId ++ rangeEnd) t.id && decide (t.localId = id)

/-- The query of `task.cancel`. -/
def cancelQuery (E : Env) (connId : String) (id : Any) (now : Int) (s : Store) :
    Store × WriteRes :=
  reqlUpdate (cancelSel connId id) (branch (fun t => decide (t.stat ≠ "done")) (cancelPatch E now)) s

/-- The patch of `task.result`. -/
def resultPatch (result : Any) (now : Int) (t : Task) : Task :=
  { t with stat := "done", result := some (Dyn.stored result), deadLine := some (now + 600) }

/-- The query of `task.result`: an unconditional update of the row. -/
def resultQuery (taskid : String) (result : Any) (now : Int) (s : Store) : Store × WriteRes :=
  reqlGetUpdate taskid (resultPatch result now) s

/-- The patch of `task.error`. -/
def errorPatch (code : Int) (message : String) (data : Any) (now : Int) (t : Task) : Task :=
  { t with stat := "done", errCode := some code, errStr := message, errObj := data,
           deadLine := some (now + 600) }

/-- The query of `task.error`: an unconditional update of the row. -/
def errorQuery (taskid : String) (code : Int) (message : String) (data : Any) (now : Int)
    (s : Store) : Store × WriteRes :=
  reqlGetUpdate taskid (errorPatch code message data now) s

/-- The timeout of `task.push` and `task.pull`: ten days unless a positive one is given. -/
def effectiveTimeout (timeout : Int) : Int :=
  if timeout ≤ 0 then 60 * 60 * 24 * 10 else timeout

/-- The row that `task.push` inserts; `rnd10` is the value of `safeId(10)`. -/
def pushTask (E : Env) (nc : NexusConn) (req : JsonRpcReq) (method : String) (params : Any)
    (tags : GoMap) (now : Int) (rnd10 : String) : Task :=
  { id := nc.connId ++ rnd10, stat := "waiting", path := (E.getPathMethod method).1,
    method := (E.getPathMethod method).2, params := params, localId := req.id, tses := "",
    result := none, errCode := none, errStr := "", errObj := none, tags := some tags,
    creationTime := some now,
    deadLine := some (now + effectiveTimeout (E.float64Z req.params "timeout")) }

/-- The row that `task.pull` inserts (its `Params` is the typed nil pointer, a
database null). -/
def pullTask (E : Env) (nc : NexusConn) (req : JsonRpcReq) (pfx : String) (now : Int)
    (rnd10 : String) : Task :=
  { id := nc.connId ++ rnd10, stat := "working", path := "@pull." ++ pfx, method := "",
    params := none, localId := req.id, tses := "", result := none, errCode := none,
    errStr := "", errObj := none, tags := none, creationTime := some now,
    deadLine := some (now + effectiveTimeout (E.float64Z req.params "timeout")) }

/-- The reply after a write whose `Replaced` decides between `ok` and `InvalidTask`. -/
def replyReplaced (E : Env) (req : JsonRpcReq) (dbErr : Bool) (w : Store × WriteRes) (s : Store) :
    Store × List JsonRpcRes :=
  if dbErr then (s, [req.Error E E.ErrInternal "" none])
  else if w.2.replaced > 0 then (w.1, [req.Result (some okResult)])
  else (w.1, [req.Error E E.ErrInvalidTask "" none])

/-- `(*NexusConn).handleTaskReq`: the new table and the responses pushed to the
response queue.  `now` is `r.Now()`, `rnd10` the value of `safeId(10)`, and
`dbErr` tells whether the one write of the request returned an error. -/
def handleTaskReq (E : Env) (nc : NexusConn) (req : JsonRpcReq) (now : Int) (rnd10 : String)
    (dbErr : Bool) (s : Store) : Store × List JsonRpcRes :=
  if req.method = "task.push" then
    match (req.params.get "method").bind E.eiString with
    | none => (s, [req.Error E E.ErrInvalidParams "method" none])
    | some method =>
      match req.params.get "params" with
      | none => (s, [req.Error E E.ErrInvalidParams "params" none])
      | some params =>
        let tags := nc.getTags E method
        if !(E.boolZ tags ("@" ++ req.method) || E.boolZ tags "@admin") then
          (s, [req.Error E E.ErrPermissionDenied "" none])
        else
          match (if dbErr then none else reqlInsert (pushTask E nc req method params tags now rnd10) s) with
          | none => (s, [req.Error E E.ErrInternal "" none])
          | some s' => (s', [])
  else if req.method = "task.pull" then
    if req.id = none then (s, [])
    else
      let pfx := E.stringZ req.params "prefix"
      if pfx = "" then (s, [req.Error E E.ErrInvalidParams "prefix" none])
      else
        let pfx := if !hasSuffix pfx "." then pfx ++ "." else pfx
        let tags := nc.getTags E pfx
        if !(E.boolZ tags ("@" ++ req.method) || E.boolZ tags "@admin") then
          (s, [req.Error E E.ErrPermissionDenied "" none])
        else
          match (if dbErr then none else reqlInsert (pullTask E nc req pfx now rnd10) s) with
          | none => (s, [req.Error E (-32603) "" none])
          | some s' => (s', [])
  else if req.method = "task.cancel" then
    replyReplaced E req dbErr (cancelQuery E nc.connId (rawZ req.params "taskid") now s) s
  else if req.method = "task.result" then
    replyReplaced E req dbErr
      (resultQuery (E.stringZ req.params "taskid") (rawZ req.params "result") now s) s
  else if req.method = "task.error" then
    replyReplaced E req dbErr
      (errorQuery (E.stringZ req.params "taskid") (E.intZ req.params "code")
        (E.stringZ req.params "message") (rawZ req.params "data") now s) s
  else (s, [req.Error E E.ErrMethodNotFound "" none])

/-! ## Change feed and the workers of a connection -/

/-- The `Pluck` of `taskTrack` followed by the decoding of `iter.Next`: the
fields of `new_val` that reach the Go struct. -/
def pluck (t : Task) : Task :=
  { id := t.id, stat := t.stat, path := t.path, method := t.method, params := none,
    localId := t.localId, tses := "", result := goDecode t.result, errCode := t.errCode,
    errStr := t.errStr, errObj := t.errObj, tags := none, creationTime := none,
    deadLine := none }

/-- What `taskTrack` does with one feed item. -/
inductive TrackAction where
  | notifyDelete (key : String) (task : Task)
  | pull (task : Task)
  | wakeup (task : Task)
  | nothing
  | panics
  deriving DecidableEq, Repr

/-- The `switch` of `taskTrack` on one feed item. -/
def taskTrackStep (tf : TaskFeed) : TrackAction :=
  match tf.new with
  | none => TrackAction.panics
  | some task =>
    if task.stat = "done" then
      match goSlice0 task.id 16 with
      | none => TrackAction.panics
      | some key => TrackAction.notifyDelete key task
    else if task.stat = "working" then
      if hasPrefix task.path "@pull." then TrackAction.pull task else TrackAction.nothing
    else if task.stat = "waiting" then
      if !hasPrefix task.path "@pull." then TrackAction.wakeup task else TrackAction.nothing
    else TrackAction.nothing

/-- The body of the loop of `respWorker`: the response pushed for one task
received from the session notifier. -/
def respWorkerStep (resTask : Task) : JsonRpcRes :=
  match resTask.errCode with
  | some code =>
    { jsonrpc := "", id := resTask.localId, result := none,
      error := some { code := code, message := resTask.errStr, data := resTask.errObj } }
  | none =>
    { jsonrpc := "", id := resTask.localId, result := resTask.result, error := none }

/-- The body of the loop of `sendWorker` up to `json.Marshal`: the structure
that is marshalled and written, or `none` when the response is skipped. -/
def sendWorkerStep (E : Env) (res : JsonRpcRes) : Option JsonRpcRes :=
  let finish := fun (res : JsonRpcRes) =>
    let res := { res with jsonrpc := "2.0" }
    if res.result = none ∧ res.error = none then { res with result := some (Dyn.val Val.nilPtr) }
    else res
  if res.id = none then
    match res.error with
    | none => none
    | some e =>
      if e.code = E.ErrInvalidRequest ∨ e.code = E.ErrParse then
        some (finish { res with id := some Val.nilPtr })
      else none
  else some (finish res)

/-- How `encoding/json` writes an `interface{}` field tagged `omitempty`. -/
inductive Wire (α : Type) where
  | omitted
  | null
  | value (v : α)
  deriving DecidableEq, Repr

/-- The `id` member on the wire. -/
def wireId (res : JsonRpcRes) : Wire Val :=
  match res.id with
  | none => Wire.omitted
  | some Val.nilPtr => Wire.null
  | some v => Wire.value v

/-- The `result` member on the wire. -/
def wireResult (res : JsonRpcRes) : Wire Dyn :=
  match res.result with
  | none => Wire.omitted
  | some Dyn.null => Wire.null
  | some (Dyn.val Val.nilPtr) => Wire.null
  | some d => Wire.value d

/-! ## Predicates used in the statements -/

/-- The primary key constraint of the table: no two rows share an id. -/
def uniqueIds (s : Store) : Prop := (s.map (fun t => t.id)).Nodup

instance (s : Store) : Decidable (uniqueIds s) := by
  unfold uniqueIds; infer_instance

/-- A matcher is a run of `taskPull` (which also writes `tses`) or of `taskWakeup`. -/
inductive Matcher where
  | pull (tses : String)
  | wakeup
  deriving DecidableEq, Repr

/-- The patch a matcher applies when its claim succeeds. -/
def Matcher.patch : Matcher → Task → Task
  | Matcher.pull tses => pullClaimPatch tses
  | Matcher.wakeup => wakeupClaimPatch

/-- The rewrite of one row by the first purge query. -/
def purgeRow (E : Env) (now : Int) (t : Task) : Task :=
  if expired now t then branch (fun t => decide (t.stat ≠ "done")) (timeoutPatch E now) t else t

/-- The rows that `task.cancel` rewrites: in the prefix range of the connection,
with the given `localId`, and not done. -/
def cancelHit (connId : String) (id : Any) (t : Task) : Bool :=
  between connId (connId ++ rangeEnd) t.id && decide (t.localId = id) && decide (t.stat ≠ "done")

/-! ## A sample environment and sample data

The values below stand for what a deployment provides; they are used to run
the definitions on concrete inputs. -/

/-- Modelled from the spec: `prefixes`, which is not under `src/`, "yields the
sequence of dot-stripped prefixes used for tag lookup"; here `a.b.c` gives
`a`, `a.b`, `a.b.c`.  Used only in the sample environment. -/
def dotPrefixes : List Char → List Char → List String
  | seen, [] => [String.mk seen.reverse]
  | seen, c :: cs =>
    if c = '.' then String.mk seen.reverse :: dotPrefixes (c :: seen) cs
    else dotPrefixes (c :: seen) cs

/-- Modelled from the spec: `getPathMethod`, which is not under `src/`, "splits a
full method into (namespace path, leaf method)"; here the split is after the
last dot, the path keeping the dot, as the paths `@pull.` + a dotted
`prefix` of `task.pull` require.  Used only in the sample environment. -/
def splitLastDot (m : String) : String × String :=
  (String.mk (m.data.reverse.dropWhile (fun c => c != '.')).reverse,
   String.mk (m.data.reverse.takeWhile (fun c => c != '.')).reverse)

/-- A sample environment: a node id of 12 characters, the JSON-RPC codes for
parse and invalid-request errors, distinct negative codes for the others, and
conversions that accept exactly the values of the requested type. -/
def sampleEnv : Env :=
  { nodeId := "node00000001",
    ErrParse := -32700,
    ErrInvalidRequest := -32600,
    ErrMethodNotFound := -32601,
    ErrInvalidParams := -32602,
    ErrInternal := -32603,
    ErrInvalidTask := -32002,
    ErrPermissionDenied := -32010,
    ErrTimeout := -32000,
    ErrCancel := -32001,
    ErrStr := fun c =>
      if c = -32000 then "Timeout" else if c = -32001 then "Cancel"
      else if c = -32002 then "Invalid task" else if c = -32010 then "Permission denied"
      else "Error",
    prefixes := fun p => dotPrefixes [] p.data,
    getPathMethod := splitLastDot,
    eiString := fun a => match a with
      | some (Val.str x) => some x
      | _ => none,
    eiBool := fun a => match a with
      | some (Val.bool b) => some b
      | _ => none,
    eiInt := fun a => match a with
      | some (Val.num n) => some n
      | _ => none,
    eiFloat64 := fun a => match a with
      | some (Val.num n) => some n
      | _ => none }

/-- A user allowed to push and pull under `math`. -/
def mathUser : UserData :=
  { tags := some [("math", [("@task.push", some (Val.bool true)),
                            ("@task.pull", some (Val.bool true))])] }

/-- The connection of the caller: node id plus the suffix `aaaa`. -/
def callerConn : NexusConn :=
  { connId := "node00000001aaaa", user := some mathUser }

/-- The connection of a worker. -/
def workerConn : NexusConn :=
  { connId := "node00000001bbbb", user := some mathUser }

/-- A connection that has not logged in. -/
def guestConn : NexusConn :=
  { connId := "node00000001cccc", user := none }

/-- The request `task.push` of `math.add` with request id 1. -/
def pushReq : JsonRpcReq :=
  { jsonrpc := "2.0", id := some (Val.num 1), method := "task.push",
    params := [("method", some (Val.str "math.add")), ("params", some (Val.raw "[2,3]"))] }

/-- The request `task.cancel` of the call with request id 1. -/
def cancelReq : JsonRpcReq :=
  { jsonrpc := "2.0", id := some (Val.num 2), method := "task.cancel",
    params := [("taskid", some (Val.num 1))] }

/-- The request `task.result` of the worker, with result 5. -/
def resultReq : JsonRpcReq :=
  { jsonrpc := "2.0", id := some (Val.num 7), method := "task.result",
    params := [("taskid", some (Val.str "node00000001aaaa0123456789")),
               ("result", some (Val.num 5))] }

/-- The table after the push at time 100. -/
def storePushed : Store :=
  (handleTaskReq sampleEnv callerConn pushReq 100 "0123456789" false []).1

/-- The table after the push and the cancel at time 110. -/
def storeCancelled : Store :=
  (handleTaskReq sampleEnv callerConn cancelReq 110 "" false storePushed).1

/-- The table after the push, the cancel and the result of the worker at time 111. -/
def storeCancelledThenResult : Store :=
  (handleTaskReq sampleEnv workerConn resultReq 111 "" false storeCancelled).1

/-- The tables reachable from the empty table by the task operations: a request
handled by `handleTaskReq` (`task.push`, `task.pull`, `task.cancel`,
`task.result`, `task.error`), a run of `taskPull` or of `taskWakeup` that
returns, and a tick of the purger. -/
inductive Reachable (E : Env) : Store → Prop where
  | empty : Reachable E []
  | request (nc : NexusConn) (req : JsonRpcReq) (now : Int) (rnd10 : String) (dbErr : Bool)
      (s : Store) : Reachable E s → Reachable E (handleTaskReq E nc req now rnd10 dbErr s).1
  | pull (now : Int) (task : Task) (turns : List PullTurn) (s s' : Store) (b : Bool) :
      Reachable E s → taskPull now task turns s = some (s', b) → Reachable E s'
  | wakeup (task : Task) (turns : List WakeTurn) (s s' : Store) (b : Bool) :
      Reachable E s → taskWakeup task turns s = some (s', b) → Reachable E s'
  | purge (now1 now2 : Int) (s : Store) : Reachable E s → Reachable E (taskPurgeTick E now1 now2 s)

/-- A row has exactly one of `result` and `errCode`. -/
def exactlyOneOutcome (t : Task) : Prop :=
  (t.result ≠ none ∧ t.errCode = none) ∨ (t.result = none ∧ t.errCode ≠ none)

instance (t : Task) : Decidable (exactlyOneOutcome t) := by
  unfold exactlyOneOutcome; infer_instance

/-- A done row has a result or an error code (the half of the done-task
invariant that says never neither). -/
def hasOutcome (t : Task) : Prop :=
  t.stat = "done" → t.result ≠ none ∨ t.errCode ≠ none

/-- The done-task invariant of a table. -/
def doneInvariant (s : Store) : Prop :=
  ∀ t ∈ s, t.stat = "done" → exactlyOneOutcome t

instance (s : Store) : Decidable (doneInvariant s) := by
  unfold doneInvariant; infer_instance

/-- The single operations on a task row: the claim of a matcher, the rollback
and the parking update of `taskPull`, the completion of a pull-record,
`task.result`, `task.error`, `task.cancel` and the purge update. -/
inductive TaskOp where
  | claim (m : Matcher)
  | rollback
  | park
  | pullDone (result : Dyn)
  | result (r : Any)
  | error (code : Int) (message : String) (data : Any)
  | cancel
  | purge
  deriving DecidableEq, Repr

/-- The update function that an operation applies to the row it selected. -/
def TaskOp.apply (E : Env) (now : Int) : TaskOp → Task → Task
  | TaskOp.claim m => branch (fun t => decide (t.stat = "waiting")) m.patch
  | TaskOp.rollback => waitingPatch
  | TaskOp.park => branch (fun t => decide (t.stat = "working")) waitingPatch
  | TaskOp.pullDone d => branch (fun t => decide (t.stat = "working")) (pullDonePatch d now)
  | TaskOp.result r => resultPatch r now
  | TaskOp.error code message data => errorPatch code message data now
  | TaskOp.cancel => branch (fun t => decide (t.stat ≠ "done")) (cancelPatch E now)
  | TaskOp.purge => branch (fun t => decide (t.stat ≠ "done")) (timeoutPatch E now)

/-- The three values of `stat`. -/
def validStat (a : String) : Prop := a = "waiting" ∨ a = "working" ∨ a = "done"

/-- The transitions of `stat` that the specification allows. -/
def allowedTransition (a b : String) : Prop :=
  (a = "waiting" ∧ b = "working") ∨ (a = "working" ∧ b = "waiting") ∨
  (a = "working" ∧ b = "done") ∨ (a = "waiting" ∧ b = "done")

instance (a b : String) : Decidable (allowedTransition a b) := by
  unfold allowedTransition; infer_instance

/-- A sample row with the given id, stat, deadline, result and error code. -/
def sampleRow (id stat : String) (deadLine : Int) (result : Option Dyn) (errCode : Option Int) :
    Task :=
  { id := id, stat := stat, path := "math.", method := "add", params := none,
    localId := some (Val.num 1), tses := "", result := result, errCode := errCode, errStr := "",
    errObj := none, tags := none, creationTime := some 0, deadLine := some deadLine }

/-- A table with an expired waiting row, an expired done row and a row that is not expired at time 200. -/
def purgeStore : Store :=
  [sampleRow "node00000001aaaa0000000001" "waiting" 150 none none,
   sampleRow "node00000001aaaa0000000002" "done" 160 (some (Dyn.val (Val.num 5))) none,
   sampleRow "node00000001aaaa0000000003" "working" 900 none none]

/-- The row of the sample push after the cancel and the result of the worker. -/
def rowCancelledThenResult : Task :=
  { id := "node00000001aaaa0123456789", stat := "done", path := "math.", method := "add",
    params := some (Val.raw "[2,3]"), localId := some (Val.num 1), tses := "",
    result := some (Dyn.val (Val.num 5)), errCode := some (-32001), errStr := "Cancel",
    errObj := none,
    tags := some [("@task.push", some (Val.bool true)), ("@task.pull", some (Val.bool true))],
    creationTime := some 100, deadLine := some 711 }

/-- A pass of the loop of `taskPull` collides on the table `s`: the claim query
returns no error, replaces nothing and reports the sampled row as unchanged. -/
def collides (task : Task) (tses : String) (s : Store) (c : PullTurn) : Prop :=
  c.claimErr = false ∧
  (claimQuery (pullPrefix task) (pullClaimPatch tses) c.sample s).2.replaced = 0 ∧
  0 < (claimQuery (pullPrefix task) (pullClaimPatch tses) c.sample s).2.unchanged

/-- The row of the sample push. -/
def rowPushed : Task :=
  { id := "node00000001aaaa0123456789", stat := "waiting", path := "math.", method := "add",
    params := some (Val.raw "[2,3]"), localId := some (Val.num 1), tses := "",
    result := none, errCode := none, errStr := "", errObj := none,
    tags := some [("@task.push", some (Val.bool true)), ("@task.pull", some (Val.bool true))],
    creationTime := some 100, deadLine := some 864100 }

/-- A pull-record of the worker on `math.` that was cancelled before it was matched. -/
def pullRecordDone : Task :=
  { id := "node00000001bbbb0000000009", stat := "done", path := "@pull.math.", method := "",
    params := none, localId := some (Val.num 3), tses := "", result := none,
    errCode := some (-32001), errStr := "Cancel", errObj := none, tags := none,
    creationTime := some 90, deadLine := some 700 }

/-- The table with the pushed row and the cancelled pull-record. -/
def pullStore : Store := [rowPushed, pullRecordDone]

/-- A pass of the loop in which the pushed row is sampled and no query returns an error. -/
def claimTurn : PullTurn :=
  { claimErr := false, sample := some "node00000001aaaa0123456789", presErr := false }

/-- The table after the first query of `taskPull` on the cancelled pull-record:
the pushed row is claimed. -/
def storeClaimed : Store :=
  (claimQuery (pullPrefix pullRecordDone) (pullClaimPatch "node00000001bbbb") claimTurn.sample
    pullStore).1

/-- The table after the caller then cancels its call, at time 110. -/
def storeClaimedCancelled : Store :=
  (handleTaskReq sampleEnv callerConn cancelReq 110 "" false storeClaimed).1

/-- The table after the rollback that `taskPull` then runs, its pull-record
update having replaced no row. -/
def storeRolledBack : Store :=
  (rollbackQuery "node00000001aaaa0123456789" storeClaimedCancelled).1

/-- The sample environment with a node id of five characters. -/
def shortEnv : Env := { sampleEnv with nodeId := "node1" }

/-! ## The loops of `taskTrack` -/

/-- The outcome of one `Run(db)` of the change feed query in `taskTrack`:
an error, or an iterator that delivers `items` before `iter.Next` returns false. -/
inductive FeedOpen where
  | failed
  | opened (items : List TaskFeed)
  deriving DecidableEq, Repr

/-- The inner loop of `taskTrack` on one opened feed: the actions dispatched for
the items in order, and whether the loop ended in a panic (after which nothing
more is dispatched) instead of the `break` on `iter.Next` returning false. -/
def feedLoop : List TaskFeed → List TrackAction × Bool
  | [] => ([], false)
  | tf :: rest =>
    if taskTrackStep tf = TrackAction.panics then ([TrackAction.panics], true)
    else (taskTrackStep tf :: (feedLoop rest).1, (feedLoop rest).2)

/-- How a run of `taskTrack` stands once the given outcomes are used up: the
`for` loop has ended (`retry` reached 10 and the function returns), a feed item
made it panic, or it is still running. -/
inductive TrackEnd where
  | gaveUp
  | panicked
  | running
  deriving DecidableEq, Repr

/-- A run of `taskTrack`: how it stands, how many times it opened the feed, and
the actions it dispatched. -/
structure TrackRun where
  ending : TrackEnd
  attempts : Nat
  actions : List TrackAction
  deriving DecidableEq, Repr

/-- The outer loop of `taskTrack`, entered at its test `retry < 10` with the
given value of `retry`.  A failed open reaches the post statement `retry++`
through `continue`; a successful open sets `retry = 0`, runs the inner loop,
and after its `break` reaches the same post statement, so that the next test
sees `retry = 1`. -/
def taskTrack (retry : Nat) : List FeedOpen → TrackRun
  | [] =>
    if retry < 10 then { ending := TrackEnd.running, attempts := 0, actions := [] }
    else { ending := TrackEnd.gaveUp, attempts := 0, actions := [] }
  | FeedOpen.failed :: rest =>
    if retry < 10 then
      { taskTrack (retry + 1) rest with attempts := (taskTrack (retry + 1) rest).attempts + 1 }
    else { ending := TrackEnd.gaveUp, attempts := 0, actions := [] }
  | FeedOpen.opened items :: rest =>
    if retry < 10 then
      if (feedLoop items).2 then
        { ending := TrackEnd.panicked, attempts := 1, actions := (feedLoop items).1 }
      else
        { ending := (taskTrack (0 + 1) rest).ending,
          attempts := (taskTrack (0 + 1) rest).attempts + 1,
          actions := (feedLoop items).1 ++ (taskTrack (0 + 1) rest).actions }
    else { ending := TrackEnd.gaveUp, attempts := 0, actions := [] }

/-- A done row whose id has five characters. -/
def shortIdRow : Task := sampleRow "short" "done" 0 none (some (-32001))

/-- A feed that opens once, delivers the pushed row, and then cannot be opened again. -/
def feedOnceThenDown (k : Nat) : List FeedOpen :=
  FeedOpen.opened [{ old := none, new := some (pluck rowPushed) }] ::
    List.replicate k FeedOpen.failed

/-! ## Theorems -/

/-! ### The ReQL update -/

theorem reqlUpdateRow_fst (f : Task → Task) (t : Task) : (reqlUpdateRow f t).1 = f t := by
  unfold reqlUpdateRow
  by_cases h : f t = t
  · simp [h]
  · simp [h]

theorem reqlUpdateRow_replaced (f : Task → Task) (t : Task) :
    (reqlUpdateRow f t).2.replaced = if f t = t then 0 else 1 := by
  unfold reqlUpdateRow
  by_cases h : f t = t
  · simp [h, WriteRes.zero]
  · simp [h, WriteRes.zero]

theorem reqlUpdate_fst (sel : Task → Bool) (f : Task → Task) (s : Store) :
    (reqlUpdate sel f s).1 = s.map (fun t => if sel t then f t else t) := by
  induction s with
  | nil => rfl
  | cons t ts ih =>
    by_cases h : sel t = true
    · simp [reqlUpdate, h, ih, reqlUpdateRow_fst]
    · simp [reqlUpdate, h, ih]

theorem reqlUpdate_replaced (sel : Task → Bool) (f : Task → Task) (s : Store) :
    (reqlUpdate sel f s).2.replaced = s.countP (fun t => sel t && decide (f t ≠ t)) := by
  induction s with
  | nil => rfl
  | cons t ts ih =>
    by_cases h : sel t = true
    · by_cases hf : f t = t
      · simp [reqlUpdate, h, ih, hf, WriteRes.add, reqlUpdateRow_replaced, List.countP_cons]
      · simp [reqlUpdate, h, ih, hf, WriteRes.add, reqlUpdateRow_replaced, List.countP_cons]
        omega
    · simp [reqlUpdate, h, ih, List.countP_cons]

/-! ### C2 -/

/-- C2 (at most one winner): when two matchers apply the conditional claim
update to the same row one after the other, whatever the row, the two matchers
and their order, they do not both observe `Replaced > 0`. -/
theorem claim_at_most_one_winner (t : Task) (m1 m2 : Matcher) :
    ¬ (0 < (claimRow m1.patch t).2.replaced ∧
       0 < (claimRow m2.patch (claimRow m1.patch t).1).2.replaced) := by
  have hstat : ∀ (m : Matcher) (u : Task), (m.patch u).stat = "working" := by
    intro m u
    cases m <;> rfl
  unfold claimRow
  rw [reqlUpdateRow_fst, reqlUpdateRow_replaced, reqlUpdateRow_replaced]
  by_cases hw : t.stat = "waiting"
  · have h1 : branch (fun t => decide (t.stat = "waiting")) m1.patch t = m1.patch t := by
      simp [branch, hw]
    have h2 : branch (fun t => decide (t.stat = "waiting")) m2.patch (m1.patch t) = m1.patch t := by
      simp [branch, hstat m1 t]
    rw [h1, h2]
    simp
  · have h1 : branch (fun t => decide (t.stat = "waiting")) m1.patch t = t := by
      simp [branch, hw]
    rw [h1]
    simp

/-! ### C5 -/

theorem uniqueIds_eq {s : Store} (hs : uniqueIds s) {a b : Task} (ha : a ∈ s) (hb : b ∈ s)
    (hab : a.id = b.id) : a = b :=
  List.inj_on_of_nodup_map hs ha hb hab

theorem purgeRow_id (E : Env) (now : Int) (t : Task) : (purgeRow E now t).id = t.id := by
  unfold purgeRow branch timeoutPatch
  split <;> [split; skip] <;> rfl

theorem mem_taskPurgeTick (E : Env) (now1 now2 : Int) (s : Store) (u : Task) :
    u ∈ taskPurgeTick E now1 now2 s ↔
      (∃ t ∈ s, purgeRow E now1 t = u) ∧ ¬ (expired now2 u = true ∧ u.stat = "done") := by
  unfold taskPurgeTick purgeDelete purgeUpdate reqlDelete
  rw [reqlUpdate_fst]
  simp only [List.mem_filter, List.mem_map, purgeRow]
  constructor
  · rintro ⟨h1, h2⟩
    refine ⟨h1, ?_⟩
    rintro ⟨he, hd⟩
    simp [he, hd] at h2
  · rintro ⟨h1, h2⟩
    refine ⟨h1, ?_⟩
    by_cases he : expired now2 u = true <;> by_cases hd : u.stat = "done" <;> simp_all

/-- C5 (purge tick): in a table with unique ids, after one tick of the purger at
time `now`, a row whose deadline was before `now` and that was not done is
still there, rewritten to done with `errCode = ErrTimeout` and
`deadLine = now + 600`; a row whose deadline was before `now` and that was done
is gone (no row has its id); a row whose deadline is `now` or later is unchanged. -/
theorem purge_tick (E : Env) (now : Int) (s : Store) (hs : uniqueIds s) (t : Task) (ht : t ∈ s) :
    (∀ d, t.deadLine = some d → d < now → t.stat ≠ "done" →
      (∃ u ∈ taskPurgeTick E now now s, u.id = t.id) ∧
      ∀ u ∈ taskPurgeTick E now now s, u.id = t.id →
        u = timeoutPatch E now t ∧ u.stat = "done" ∧ u.errCode = some E.ErrTimeout ∧
        u.deadLine = some (now + 600)) ∧
    (∀ d, t.deadLine = some d → d < now → t.stat = "done" →
      ∀ u ∈ taskPurgeTick E now now s, u.id ≠ t.id) ∧
    (∀ d, t.deadLine = some d → now ≤ d → t ∈ taskPurgeTick E now now s) := by
  have key : ∀ u ∈ taskPurgeTick E now now s, u.id = t.id → u = purgeRow E now t := by
    intro u hu hid
    obtain ⟨⟨t0, ht0, rfl⟩, _⟩ := (mem_taskPurgeTick E now now s u).1 hu
    rw [purgeRow_id] at hid
    rw [uniqueIds_eq hs ht0 ht hid]
  refine ⟨?_, ?_, ?_⟩
  · intro d hd hlt hstat
    have hrow : purgeRow E now t = timeoutPatch E now t := by
      simp [purgeRow, expired, hd, hlt, branch, hstat]
    have hmem : timeoutPatch E now t ∈ taskPurgeTick E now now s := by
      rw [mem_taskPurgeTick]
      refine ⟨⟨t, ht, hrow⟩, ?_⟩
      simp [expired, timeoutPatch]
    refine ⟨⟨_, hmem, rfl⟩, ?_⟩
    intro u hu hid
    rw [key u hu hid, hrow]
    exact ⟨rfl, rfl, rfl, rfl⟩
  · intro d hd hlt hstat u hu hid
    have hrow : purgeRow E now t = t := by
      simp [purgeRow, expired, hd, hlt, branch, hstat]
    have hu2 := (mem_taskPurgeTick E now now s u).1 hu
    rw [key u hu hid, hrow] at hu2
    apply hu2.2
    simp [expired, hd, hlt, hstat]
  · intro d hd hle
    have hexp : expired now t = false := by
      simp [expired, hd, hle]
    rw [mem_taskPurgeTick]
    refine ⟨⟨t, ht, ?_⟩, ?_⟩
    · simp [purgeRow, hexp]
    · simp [hexp]

/-- Witness of C5: at time 200 the expired waiting row of the sample table is kept. -/
theorem purge_tick_witness :
    uniqueIds purgeStore ∧
    sampleRow "node00000001aaaa0000000001" "waiting" 150 none none ∈ purgeStore ∧
    ∃ u ∈ taskPurgeTick sampleEnv 200 200 purgeStore, u.id = "node00000001aaaa0000000001" :=
  ⟨by decide, by decide,
   ((purge_tick sampleEnv 200 purgeStore (by decide)
      (sampleRow "node00000001aaaa0000000001" "waiting" 150 none none) (by decide)).1
      150 rfl (by decide) (by decide)).1⟩

/-! ### C4 -/

theorem cancel_changes_iff (E : Env) (now : Int) (t : Task) :
    branch (fun t => decide (t.stat ≠ "done")) (cancelPatch E now) t ≠ t ↔ t.stat ≠ "done" := by
  unfold branch
  by_cases h : t.stat = "done"
  · simp [h]
  · simp only [ne_eq, h, not_false_eq_true, decide_True, if_true, iff_true]
    intro heq
    apply h
    rw [← heq]
    rfl

theorem cancelQuery_replaced (E : Env) (connId : String) (id : Any) (now : Int) (s : Store) :
    0 < (cancelQuery E connId id now s).2.replaced ↔ ∃ t ∈ s, cancelHit connId id t = true := by
  unfold cancelQuery
  rw [reqlUpdate_replaced, List.countP_pos_iff]
  constructor
  · rintro ⟨t, ht, hp⟩
    refine ⟨t, ht, ?_⟩
    simp only [Bool.and_eq_true, decide_eq_true_eq] at hp
    have h2 := (cancel_changes_iff E now t).1 hp.2
    simp only [cancelSel, Bool.and_eq_true, decide_eq_true_eq] at hp
    simp [cancelHit, hp.1.1, hp.1.2, h2]
  · rintro ⟨t, ht, hp⟩
    refine ⟨t, ht, ?_⟩
    simp only [cancelHit, Bool.and_eq_true, decide_eq_true_eq] at hp
    have h2 := (cancel_changes_iff E now t).2 hp.2
    simp only [Bool.and_eq_true, decide_eq_true_eq, cancelSel]
    exact ⟨⟨hp.1.1, hp.1.2⟩, h2⟩

theorem cancelQuery_fst (E : Env) (connId : String) (id : Any) (now : Int) (s : Store) :
    (cancelQuery E connId id now s).1 =
      s.map (fun t => if cancelHit connId id t then cancelPatch E now t else t) := by
  unfold cancelQuery
  rw [reqlUpdate_fst]
  apply List.map_congr_left
  intro t _
  by_cases h1 : cancelSel connId id t = true <;> by_cases h2 : t.stat = "done" <;>
    simp_all [cancelHit, cancelSel, branch]

/-- C4 (`task.cancel`): for every table and every `taskid` argument, when the
store executes the query, `task.cancel` replies `ok: true` exactly when some
row in the prefix range of the connection has `localId` equal to the argument
and is not done; then every such row becomes done with `errCode = ErrCancel`
and `deadLine = now + 600` and the other rows are unchanged; otherwise (so also
when the task is already done) the reply is `InvalidTask` and the table is unchanged. -/
theorem task_cancel (E : Env) (nc : NexusConn) (req : JsonRpcReq) (now : Int) (rnd10 : String)
    (s : Store) (hm : req.method = "task.cancel") :
    ((handleTaskReq E nc req now rnd10 false s).2 = [req.Result (some okResult)] ↔
      ∃ t ∈ s, cancelHit nc.connId (rawZ req.params "taskid") t = true) ∧
    ((∃ t ∈ s, cancelHit nc.connId (rawZ req.params "taskid") t = true) →
      (handleTaskReq E nc req now rnd10 false s).1 =
        s.map (fun t =>
          if cancelHit nc.connId (rawZ req.params "taskid") t then
            { t with stat := "done", errCode := some E.ErrCancel, errStr := E.ErrStr E.ErrCancel,
                     deadLine := some (now + 600) }
          else t)) ∧
    ((¬ ∃ t ∈ s, cancelHit nc.connId (rawZ req.params "taskid") t = true) →
      (handleTaskReq E nc req now rnd10 false s).2 = [req.Error E E.ErrInvalidTask "" none] ∧
      (handleTaskReq E nc req now rnd10 false s).1 = s) := by
  have hout : handleTaskReq E nc req now rnd10 false s =
      replyReplaced E req false (cancelQuery E nc.connId (rawZ req.params "taskid") now s) s := by
    simp [handleTaskReq, hm]
  have hne : req.Result (some okResult) ≠ req.Error E E.ErrInvalidTask "" none := by
    intro h
    have := congrArg JsonRpcRes.error h
    simp [JsonRpcReq.Result, JsonRpcReq.Error] at this
  rw [hout]
  by_cases hex : ∃ t ∈ s, cancelHit nc.connId (rawZ req.params "taskid") t = true
  · have hpos := (cancelQuery_replaced E nc.connId (rawZ req.params "taskid") now s).2 hex
    refine ⟨?_, ?_, ?_⟩
    · simp [replyReplaced, hpos, hex]
    · intro _
      simp only [replyReplaced, hpos, if_true, Bool.false_eq_true, if_false]
      rw [cancelQuery_fst]
      rfl
    · intro h
      exact absurd hex h
  · have hzero : ¬ 0 < (cancelQuery E nc.connId (rawZ req.params "taskid") now s).2.replaced :=
      fun h => hex ((cancelQuery_replaced E nc.connId (rawZ req.params "taskid") now s).1 h)
    refine ⟨?_, ?_, ?_⟩
    · simp only [replyReplaced, hzero, if_false, Bool.false_eq_true, hex, iff_false]
      intro h
      exact hne (List.singleton_inj.1 h).symm
    · intro h
      exact absurd h hex
    · intro _
      simp only [replyReplaced, hzero, if_false, Bool.false_eq_true, true_and]
      rw [cancelQuery_fst]
      have : ∀ t ∈ s, (fun t => if cancelHit nc.connId (rawZ req.params "taskid") t = true
          then cancelPatch E now t else t) t = t := by
        intro t ht
        have : cancelHit nc.connId (rawZ req.params "taskid") t ≠ true := fun h => hex ⟨t, ht, h⟩
        simp [this]
      rw [List.map_congr_left this]
      simp

/-- Witness of C4: the cancel of the sample push is answered `ok` and the row becomes done. -/
theorem task_cancel_witness :
    (handleTaskReq sampleEnv callerConn cancelReq 110 "" false storePushed).2 =
        [cancelReq.Result (some okResult)] ∧
    ∃ t ∈ storePushed, cancelHit callerConn.connId (rawZ cancelReq.params "taskid") t = true :=
  ⟨((task_cancel sampleEnv callerConn cancelReq 110 "" storePushed rfl).1).2 (by decide),
   by decide⟩

/-! ### C9 -/

/-- C9 (writer normalisation): for every response taken from the queue,
`sendWorker` writes nothing when the response has no id unless its error code
is `ErrInvalidRequest` or `ErrParse`, and then the id is written as JSON null;
a response with an id is written; every written response has
`jsonrpc = "2.0"`; and a written response that had neither result nor error
carries `result: null`. -/
theorem send_worker_normalises (E : Env) (res : JsonRpcRes) :
    (res.id = none →
      (sendWorkerStep E res = none ↔
        ¬ ∃ e, res.error = some e ∧ (e.code = E.ErrInvalidRequest ∨ e.code = E.ErrParse))) ∧
    (res.id = none → ∀ e, res.error = some e →
      (e.code = E.ErrInvalidRequest ∨ e.code = E.ErrParse) →
      ∃ w, sendWorkerStep E res = some w ∧ wireId w = Wire.null) ∧
    (res.id ≠ none → ∃ w, sendWorkerStep E res = some w ∧ w.id = res.id) ∧
    (∀ w, sendWorkerStep E res = some w → w.jsonrpc = "2.0") ∧
    (∀ w, sendWorkerStep E res = some w → res.result = none → res.error = none →
      wireResult w = Wire.null) := by
  obtain ⟨j, id, result, error⟩ := res
  refine ⟨?_, ?_, ?_, ?_, ?_⟩
  · intro hid
    simp only at hid
    subst hid
    cases error with
    | none => simp [sendWorkerStep]
    | some e =>
      by_cases hc : e.code = E.ErrInvalidRequest ∨ e.code = E.ErrParse
      · simp [sendWorkerStep, hc]
      · simp [sendWorkerStep, hc]
  · intro hid e he hc
    simp only at hid he
    subst hid
    subst he
    simp [sendWorkerStep, hc, wireId]
  · intro hid
    simp only [ne_eq] at hid
    by_cases hr : result = none ∧ error = none
    · simp [sendWorkerStep, hid, hr]
    · simp [sendWorkerStep, hid, hr]
  · intro w hw
    cases id with
    | none =>
      cases error with
      | none => simp [sendWorkerStep] at hw
      | some e =>
        by_cases hc : e.code = E.ErrInvalidRequest ∨ e.code = E.ErrParse
        · simp [sendWorkerStep, hc] at hw
          rw [← hw]
        · simp [sendWorkerStep, hc] at hw
    | some v =>
      by_cases hr : result = none ∧ error = none
      · simp [sendWorkerStep, hr] at hw
        rw [← hw]
      · simp [sendWorkerStep, hr] at hw
        rw [← hw]
  · intro w hw hres herr
    simp only at hres herr
    subst hres
    subst herr
    cases id with
    | none => simp [sendWorkerStep] at hw
    | some v =>
      simp [sendWorkerStep] at hw
      rw [← hw]
      rfl

/-! ### C7 -/

theorem goSlice0_append (a b : String) (n : Nat) (h : a.length = n) :
    goSlice0 (a ++ b) n = some a := by
  have hlen : ¬ (a ++ b).length < n := by
    rw [String.length_append]
    omega
  have hdata : (a ++ b).data.take n = a.data := by
    rw [String.data_append]
    have : a.data.length = n := h
    rw [← this, List.take_left]
  simp only [goSlice0, hlen, if_false, hdata]

/-- C7 as stated fails: with a node id of five characters the first sixteen
characters of a task id are not the connection id. -/
theorem task_id_routes_counterexample :
    ¬ ∀ (E : Env) (rnd4 rnd10 : String), E.nodeId.length ≤ 16 → rnd4.length = 4 →
        rnd10.length = 10 →
        goSlice0 (pushTask E (NewNexusConn E rnd4) pushReq "math.add" none [] 0 rnd10).id 16 =
          some (NewNexusConn E rnd4).connId := by
  intro h
  have h1 := h shortEnv "aaaa" "0123456789" (by decide) (by decide) (by decide)
  revert h1
  decide

/-- C7 amended: for every node id of exactly twelve characters, every connection
id `nodeId + safeId(4)` and every task id that `task.push` or `task.pull`
builds on it, the key `id[0:16]` of `taskTrack` is defined and is the
connection id, and `taskTrack` notifies under that key when the row is done. -/
theorem task_id_routes (E : Env) (rnd4 rnd10 : String) (req : JsonRpcReq) (method pfx : String)
    (params : Any) (tags : GoMap) (now : Int) (hn : E.nodeId.length = 12)
    (h4 : rnd4.length = 4) :
    goSlice0 (pushTask E (NewNexusConn E rnd4) req method params tags now rnd10).id 16 =
      some (NewNexusConn E rnd4).connId ∧
    goSlice0 (pullTask E (NewNexusConn E rnd4) req pfx now rnd10).id 16 =
      some (NewNexusConn E rnd4).connId ∧
    ∀ row : Task, row.id = (NewNexusConn E rnd4).connId ++ rnd10 → row.stat = "done" →
      taskTrackStep { old := none, new := some row } =
        TrackAction.notifyDelete (NewNexusConn E rnd4).connId row := by
  have hc : (NewNexusConn E rnd4).connId.length = 16 := by
    simp only [NewNexusConn, String.length_append, hn, h4]
  refine ⟨goSlice0_append _ _ 16 hc, goSlice0_append _ _ 16 hc, ?_⟩
  intro row hid hstat
  simp only [taskTrackStep, hstat, if_true, hid, goSlice0_append _ _ 16 hc]

/-- The length twelve is also necessary: with any other length of the node id
the key `id[0:16]`, when it is defined, is not the connection id. -/
theorem task_id_routes_only_twelve (E : Env) (rnd4 rnd10 : String) (hn : E.nodeId.length ≠ 12)
    (h4 : rnd4.length = 4) :
    goSlice0 ((NewNexusConn E rnd4).connId ++ rnd10) 16 ≠ some (NewNexusConn E rnd4).connId := by
  intro h
  unfold goSlice0 at h
  split at h
  · simp at h
  · rename_i hlen
    simp only [Option.some.injEq] at h
    have hge : 16 ≤ ((NewNexusConn E rnd4).connId ++ rnd10).data.length :=
      Nat.le_of_not_lt hlen
    have h1 : (NewNexusConn E rnd4).connId.length = 16 := by
      rw [← h]
      show (List.take 16 _).length = 16
      rw [List.length_take]
      omega
    simp only [NewNexusConn, String.length_append, h4] at h1
    omega

/-- Witness of C7 amended: the sample node id has twelve characters. -/
theorem task_id_routes_witness :
    sampleEnv.nodeId.length = 12 ∧
    goSlice0 (pushTask sampleEnv (NewNexusConn sampleEnv "aaaa") pushReq "math.add" none [] 0
      "0123456789").id 16 = some (NewNexusConn sampleEnv "aaaa").connId :=
  ⟨by decide,
   (task_id_routes sampleEnv "aaaa" "0123456789" pushReq "math.add" "math." none [] 0
      (by decide) (by decide)).1⟩

/-! ### C6 -/

/-- C6 (push authorization): a `task.push` whose `method` and `params` are
well formed and whose merged tag set has neither `@task.push` nor `@admin`
truthy is answered with the `ErrPermissionDenied` error of the request, and the
table is unchanged, whatever the store would have done. -/
theorem push_denied (E : Env) (nc : NexusConn) (req : JsonRpcReq) (now : Int) (rnd10 : String)
    (dbErr : Bool) (s : Store) (method : String) (params : Any)
    (hm : req.method = "task.push")
    (hmeth : (req.params.get "method").bind E.eiString = some method)
    (hpar : req.params.get "params" = some params)
    (hpush : E.boolZ (nc.getTags E method) "@task.push" = false)
    (hadm : E.boolZ (nc.getTags E method) "@admin" = false) :
    (handleTaskReq E nc req now rnd10 dbErr s).1 = s ∧
    (handleTaskReq E nc req now rnd10 dbErr s).2 = [req.Error E E.ErrPermissionDenied "" none] ∧
    (req.Error E E.ErrPermissionDenied "" none).id = req.id ∧
    (req.Error E E.ErrPermissionDenied "" none).result = none ∧
    (req.Error E E.ErrPermissionDenied "" none).error.map (fun e => e.code) =
      some E.ErrPermissionDenied := by
  have hkey : "@" ++ req.method = "@task.push" := by
    rw [hm]
    decide
  refine ⟨?_, ?_, rfl, rfl, rfl⟩
  · simp only [handleTaskReq, hm, if_true, hmeth, hpar]
    rw [← hm, hkey, hpush, hadm]
    rfl
  · simp only [handleTaskReq, hm, if_true, hmeth, hpar]
    rw [← hm, hkey, hpush, hadm]
    rfl

/-- Witness of C6: a connection that has not logged in may not push. -/
theorem push_denied_witness :
    pushReq.method = "task.push" ∧
    (handleTaskReq sampleEnv guestConn pushReq 100 "0123456789" false []).1 = [] :=
  ⟨rfl,
   (push_denied sampleEnv guestConn pushReq 100 "0123456789" false [] "math.add"
      (some (Val.raw "[2,3]")) rfl (by decide) (by decide) (by decide) (by decide)).1⟩

/-! ### The handler -/

theorem replyReplaced_fst (E : Env) (req : JsonRpcReq) (w : Store × WriteRes) (s : Store) :
    (replyReplaced E req false w s).1 = w.1 := by
  unfold replyReplaced
  by_cases h : w.2.replaced > 0
  · simp [h]
  · simp [h]

theorem handleTaskReq_cancel (E : Env) (nc : NexusConn) (req : JsonRpcReq) (now : Int)
    (rnd10 : String) (dbErr : Bool) (s : Store) (hm : req.method = "task.cancel") :
    handleTaskReq E nc req now rnd10 dbErr s =
      replyReplaced E req dbErr (cancelQuery E nc.connId (rawZ req.params "taskid") now s) s := by
  simp [handleTaskReq, hm]

theorem handleTaskReq_result (E : Env) (nc : NexusConn) (req : JsonRpcReq) (now : Int)
    (rnd10 : String) (dbErr : Bool) (s : Store) (hm : req.method = "task.result") :
    handleTaskReq E nc req now rnd10 dbErr s =
      replyReplaced E req dbErr
        (resultQuery (E.stringZ req.params "taskid") (rawZ req.params "result") now s) s := by
  simp [handleTaskReq, hm]

theorem handleTaskReq_error (E : Env) (nc : NexusConn) (req : JsonRpcReq) (now : Int)
    (rnd10 : String) (dbErr : Bool) (s : Store) (hm : req.method = "task.error") :
    handleTaskReq E nc req now rnd10 dbErr s =
      replyReplaced E req dbErr
        (errorQuery (E.stringZ req.params "taskid") (E.intZ req.params "code")
          (E.stringZ req.params "message") (rawZ req.params "data") now s) s := by
  simp [handleTaskReq, hm]

/-! ### C1 -/

/-- C1 fails on the code: the table reached from the empty table by a
`task.push`, the `task.cancel` of the caller and a `task.result` of a worker
holds a done row that has both a result and an error code, because the
update of `task.result` is not guarded by the stat of the row. -/
theorem done_invariant_broken :
    Reachable sampleEnv storeCancelledThenResult ∧
    storeCancelledThenResult = [rowCancelledThenResult] ∧
    rowCancelledThenResult.stat = "done" ∧
    rowCancelledThenResult.result = some (Dyn.val (Val.num 5)) ∧
    rowCancelledThenResult.errCode = some sampleEnv.ErrCancel ∧
    ¬ doneInvariant storeCancelledThenResult := by
  refine ⟨?_, by decide, rfl, rfl, rfl, by decide⟩
  exact Reachable.request workerConn resultReq 111 "" false _
    (Reachable.request callerConn cancelReq 110 "" false _
      (Reachable.request callerConn pushReq 100 "0123456789" false _ Reachable.empty))

/-! ### C3 -/

/-- C3 fails on the same input as C1: the worker is answered `ok`, the done
row that `taskTrack` hands to the notifier under the id of the caller's
connection still carries the error code of the cancel, and `respWorker` turns
it into an error response with id 1 instead of the response with result 5. -/
theorem result_round_trip_broken :
    (handleTaskReq sampleEnv workerConn resultReq 111 "" false storeCancelled) =
      ([rowCancelledThenResult], [resultReq.Result (some okResult)]) ∧
    taskTrackStep { old := none, new := some (pluck rowCancelledThenResult) } =
      TrackAction.notifyDelete callerConn.connId (pluck rowCancelledThenResult) ∧
    respWorkerStep (pluck rowCancelledThenResult) =
      { jsonrpc := "", id := some (Val.num 1), result := none,
        error := some { code := sampleEnv.ErrCancel, message := "Cancel", data := none } } ∧
    respWorkerStep (pluck rowCancelledThenResult) ≠
      { jsonrpc := "", id := some (Val.num 1), result := some (Dyn.val (Val.num 5)),
        error := none } := by
  refine ⟨by decide, by decide, by decide, by decide⟩

/-- Except for that defect the round trip holds: when the row addressed by
`task.result` carries no error code, the row becomes done with the result of
the request, and `respWorker` turns what the change feed delivers into the
response whose id is the `localId` of the row and whose result is that result,
without an error. -/
theorem result_round_trip_of_no_errCode (E : Env) (nc : NexusConn) (req : JsonRpcReq) (now : Int)
    (rnd10 : String) (s : Store) (t : Task) (hm : req.method = "task.result")
    (hs : uniqueIds s) (ht : t ∈ s) (hid : E.stringZ req.params "taskid" = t.id)
    (herr : t.errCode = none) :
    (∃ u ∈ (handleTaskReq E nc req now rnd10 false s).1, u.id = t.id) ∧
    ∀ u ∈ (handleTaskReq E nc req now rnd10 false s).1, u.id = t.id →
      u.stat = "done" ∧
      respWorkerStep (pluck u) =
        { jsonrpc := "", id := t.localId, result := Dyn.ofAny (rawZ req.params "result"),
          error := none } := by
  have hany : s.any (fun u => decide (u.id = t.id)) = true := by
    rw [List.any_eq_true]
    exact ⟨t, ht, by simp⟩
  have hout : (handleTaskReq E nc req now rnd10 false s).1 =
      s.map (fun u => if u.id = t.id then resultPatch (rawZ req.params "result") now u else u) := by
    have h1 : (handleTaskReq E nc req now rnd10 false s).1 =
        (resultQuery t.id (rawZ req.params "result") now s).1 := by
      rw [handleTaskReq_result E nc req now rnd10 false s hm, replyReplaced_fst, hid]
    rw [h1, resultQuery, reqlGetUpdate, if_pos hany, reqlUpdate_fst]
    simp
  rw [hout]
  constructor
  · refine ⟨resultPatch (rawZ req.params "result") now t, ?_, rfl⟩
    rw [List.mem_map]
    exact ⟨t, ht, by simp⟩
  · intro u hu huid
    rw [List.mem_map] at hu
    obtain ⟨t0, ht0, rfl⟩ := hu
    have hid0 : t0.id = t.id := by
      by_cases h : t0.id = t.id
      · exact h
      · rw [if_neg h] at huid
        exact absurd huid h
    have : t0 = t := uniqueIds_eq hs ht0 ht hid0
    subst this
    simp only [if_true]
    refine ⟨rfl, ?_⟩
    cases hr : rawZ req.params "result" <;>
      simp [respWorkerStep, pluck, resultPatch, herr, Dyn.stored, goDecode, Dyn.ofAny]

/-! ### C10 -/

/-- C10 fails on the code for the rollback of `taskPull`: a `taskPull` that
runs for a pull-record cancelled in the meantime claims the pushed row
(working); the caller cancels its call (done); the pull-record update of
`taskPull` replaces no row, and its rollback, an unconditional update, moves
the row from done to waiting, which is not an allowed transition. -/
theorem rollback_leaves_done :
    pullStore.map (fun t => (t.id, t.stat)) =
      [("node00000001aaaa0123456789", "waiting"), ("node00000001bbbb0000000009", "done")] ∧
    storeClaimed.map (fun t => (t.id, t.stat)) =
      [("node00000001aaaa0123456789", "working"), ("node00000001bbbb0000000009", "done")] ∧
    storeClaimedCancelled.map (fun t => (t.id, t.stat)) =
      [("node00000001aaaa0123456789", "done"), ("node00000001bbbb0000000009", "done")] ∧
    (pullDoneQuery pullRecordDone.id (pullDescriptor (pullClaimPatch "node00000001bbbb" rowPushed))
      120 storeClaimedCancelled).2.replaced = 0 ∧
    storeRolledBack.map (fun t => (t.id, t.stat)) =
      [("node00000001aaaa0123456789", "waiting"), ("node00000001bbbb0000000009", "done")] ∧
    ¬ allowedTransition "done" "waiting" ∧
    ∀ (E : Env) (now : Int) (t : Task), t.stat = "done" →
      (TaskOp.rollback.apply E now t).stat = "waiting" := by
  refine ⟨by decide, by decide, by decide, by decide, by decide, by decide, ?_⟩
  intro E now t _
  rfl

/-- Every operation other than the rollback keeps `stat` among the three values
and changes it only along an allowed transition; in particular it leaves a done
row done. -/
theorem transitions_except_rollback (E : Env) (now : Int) (op : TaskOp) (t : Task)
    (hop : op ≠ TaskOp.rollback) (hv : validStat t.stat) :
    validStat (op.apply E now t).stat ∧
    ((op.apply E now t).stat ≠ t.stat → allowedTransition t.stat (op.apply E now t).stat) ∧
    (t.stat = "done" → (op.apply E now t).stat = "done") := by
  have hcases : t.stat = "waiting" ∨ t.stat = "working" ∨ t.stat = "done" := hv
  cases op with
  | rollback => exact absurd rfl hop
  | claim m =>
    cases m <;> rcases hcases with h | h | h <;>
      simp [TaskOp.apply, Matcher.patch, branch, pullClaimPatch, wakeupClaimPatch, h, validStat,
        allowedTransition]
  | park =>
    rcases hcases with h | h | h <;>
      simp [TaskOp.apply, branch, waitingPatch, h, validStat, allowedTransition]
  | pullDone d =>
    rcases hcases with h | h | h <;>
      simp [TaskOp.apply, branch, pullDonePatch, h, validStat, allowedTransition]
  | result r =>
    rcases hcases with h | h | h <;>
      simp [TaskOp.apply, resultPatch, h, validStat, allowedTransition]
  | error code message data =>
    rcases hcases with h | h | h <;>
      simp [TaskOp.apply, errorPatch, h, validStat, allowedTransition]
  | cancel =>
    rcases hcases with h | h | h <;>
      simp [TaskOp.apply, branch, cancelPatch, h, validStat, allowedTransition]
  | purge =>
    rcases hcases with h | h | h <;>
      simp [TaskOp.apply, branch, timeoutPatch, h, validStat, allowedTransition]

/-! ### C8 -/

theorem reqlUpdate_changes (sel : Task → Bool) (f : Task → Task) (s : Store) :
    (reqlUpdate sel f s).2.changes =
      (s.filter (fun t => sel t && decide (f t ≠ t))).map (fun t => (t, f t)) := by
  induction s with
  | nil => rfl
  | cons t ts ih =>
    by_cases h : sel t = true
    · by_cases hf : f t = t
      · simp [reqlUpdate, h, ih, hf, WriteRes.add, reqlUpdateRow, WriteRes.zero]
      · simp [reqlUpdate, h, ih, hf, WriteRes.add, reqlUpdateRow, WriteRes.zero]
    · simp [reqlUpdate, h, ih]

theorem reqlUpdate_fst_of_replaced_zero (sel : Task → Bool) (f : Task → Task) (s : Store)
    (h : (reqlUpdate sel f s).2.replaced = 0) : (reqlUpdate sel f s).1 = s := by
  rw [reqlUpdate_replaced, List.countP_eq_zero] at h
  rw [reqlUpdate_fst]
  have : ∀ t ∈ s, (fun t => if sel t = true then f t else t) t = t := by
    intro t ht
    have h1 := h t ht
    by_cases hs : sel t = true
    · by_cases hf : f t = t
      · simp [hs, hf]
      · simp [hs, hf] at h1
    · simp [hs]
  rw [List.map_congr_left this]
  simp

theorem reqlGetUpdate_fst (id : String) (f : Task → Task) (s : Store) :
    (reqlGetUpdate id f s).1 = s.map (fun t => if t.id = id then f t else t) := by
  unfold reqlGetUpdate
  by_cases h : s.any (fun t => decide (t.id = id)) = true
  · rw [if_pos h, reqlUpdate_fst]
    simp
  · rw [if_neg h]
    have h2 : ∀ t ∈ s, (fun t => if t.id = id then f t else t) t = t := by
      intro t ht
      by_cases hid : t.id = id
      · exact absurd (List.any_eq_true.2 ⟨t, ht, by simp [hid]⟩) h
      · simp [hid]
    rw [List.map_congr_left h2]
    simp

theorem claimQuery_fst_of_replaced_zero (pfx : String) (patch : Task → Task)
    (sample : Option String) (s : Store) (h : (claimQuery pfx patch sample s).2.replaced = 0) :
    (claimQuery pfx patch sample s).1 = s := by
  cases sample with
  | none => rfl
  | some id => exact reqlUpdate_fst_of_replaced_zero _ _ s h

/-- The row that a successful claim reports in `Changes[0]` has the sampled id
and is in the table after the claim. -/
theorem claimQuery_head (pfx tses : String) (sample : Option String) (s : Store)
    (ch : Task × Task)
    (hch : (claimQuery pfx (pullClaimPatch tses) sample s).2.changes.head? = some ch) :
    sample = some ch.2.id ∧ ch.2 ∈ (claimQuery pfx (pullClaimPatch tses) sample s).1 := by
  cases sample with
  | none => simp [claimQuery, WriteRes.zero] at hch
  | some id =>
    have hmem := List.mem_of_mem_head? hch
    simp only [claimQuery] at hmem ⊢
    rw [reqlUpdate_changes, List.mem_map] at hmem
    obtain ⟨t, ht, rfl⟩ := hmem
    rw [List.mem_filter] at ht
    simp only [Bool.and_eq_true, decide_eq_true_eq] at ht
    have hbid : (branch (fun t => decide (t.stat = "waiting")) (pullClaimPatch tses) t).id = t.id := by
      unfold branch pullClaimPatch
      split <;> rfl
    refine ⟨?_, ?_⟩
    · simp only [hbid, ht.2.1.1]
    · rw [reqlUpdate_fst, List.mem_map]
      exact ⟨t, ht.1, by simp [ht.2.1.1, ht.2.1.2]⟩

/-- After the rollback of the row `cid` and the parking of the pull-record, every
row with id `cid` is waiting, and there is such a row when there was one before. -/
theorem rollback_then_park (pid cid : String) (x : Store) (hex : ∃ t ∈ x, t.id = cid) :
    (∃ u ∈ (parkQuery pid (rollbackQuery cid x).1).1, u.id = cid) ∧
    ∀ u ∈ (parkQuery pid (rollbackQuery cid x).1).1, u.id = cid → u.stat = "waiting" := by
  have hpark : ∀ t : Task, (branch (fun t => decide (t.stat = "working")) waitingPatch t).id = t.id := by
    intro t
    unfold branch waitingPatch
    split <;> rfl
  have hstep : ∀ t : Task, t.id = cid →
      (if (if t.id = cid then waitingPatch t else t).id = pid then
          branch (fun t => decide (t.stat = "working")) waitingPatch
            (if t.id = cid then waitingPatch t else t)
        else (if t.id = cid then waitingPatch t else t)) = waitingPatch t := by
    intro t ht
    rw [if_pos ht]
    by_cases hp : (waitingPatch t).id = pid
    · rw [if_pos hp]
      simp [branch, waitingPatch]
    · rw [if_neg hp]
  simp only [parkQuery, rollbackQuery, reqlGetUpdate_fst, List.map_map, List.mem_map,
    Function.comp]
  constructor
  · obtain ⟨t, ht, hid⟩ := hex
    refine ⟨waitingPatch t, ⟨t, ht, hstep t hid⟩, hid⟩
  · rintro u ⟨t, ht, rfl⟩ hu
    by_cases hid : t.id = cid
    · rw [hstep t hid]
      rfl
    · exfalso
      apply hid
      rw [if_neg hid] at hu
      by_cases hp : t.id = pid
      · rw [if_pos hp, hpark] at hu
        exact hu
      · rw [if_neg hp] at hu
        exact hu

/-- A pass of the loop of `taskPull` that collides (the claim replaces nothing
and leaves the sampled row unchanged) leaves the table as it was and goes on
with the next pass. -/
theorem taskPull_collision (now : Int) (task : Task) (tses : String) (c : PullTurn)
    (rest : List PullTurn) (s : Store) (hid : goSlice0 task.id 16 = some tses)
    (hce : c.claimErr = false)
    (hrep : (claimQuery (pullPrefix task) (pullClaimPatch tses) c.sample s).2.replaced = 0)
    (hun : 0 < (claimQuery (pullPrefix task) (pullClaimPatch tses) c.sample s).2.unchanged) :
    taskPull now task (c :: rest) s = taskPull now task rest s := by
  have hs := claimQuery_fst_of_replaced_zero _ _ _ _ hrep
  simp only [taskPull, hid, hce, hrep, hun, hs]
  simp

/-- C8 (pull rollback): in every run of `taskPull` that, after any number of
collisions, claims a waiting row (`Replaced > 0`, the row being `Changes[0]`)
and in which the update that marks the pull-record done returns an error or
does not replace exactly one row, `taskPull` returns false, and in the table
it leaves the claimed row is there with stat waiting. -/
theorem pull_rollback (now : Int) (task : Task) (tses : String) (pre : List PullTurn)
    (o : PullTurn) (os : List PullTurn) (s : Store) (ch : Task × Task)
    (hid : goSlice0 task.id 16 = some tses)
    (hpre : ∀ c ∈ pre, collides task tses s c)
    (hce : o.claimErr = false)
    (hrep : 0 < (claimQuery (pullPrefix task) (pullClaimPatch tses) o.sample s).2.replaced)
    (hch : (claimQuery (pullPrefix task) (pullClaimPatch tses) o.sample s).2.changes.head? =
      some ch)
    (hfail : o.presErr = true ∨
      (pullDoneQuery task.id (pullDescriptor ch.2) now
        (claimQuery (pullPrefix task) (pullClaimPatch tses) o.sample s).1).2.replaced ≠ 1) :
    ∃ s', taskPull now task (pre ++ o :: os) s = some (s', false) ∧
      (∃ u ∈ s', u.id = ch.2.id) ∧ ∀ u ∈ s', u.id = ch.2.id → u.stat = "waiting" := by
  induction pre with
  | cons c pre ih =>
    have hc := hpre c (List.mem_cons_self c pre)
    rw [List.cons_append, taskPull_collision now task tses c _ s hid hc.1 hc.2.1 hc.2.2]
    exact ih (fun d hd => hpre d (List.mem_cons_of_mem c hd))
  | nil =>
    have hmem := (claimQuery_head _ _ _ _ ch hch).2
    simp only [List.nil_append, taskPull, hid, hce, hrep, hch, if_true, Bool.false_eq_true,
      if_false]
    by_cases hp : o.presErr = true
    · simp only [hp, if_true]
      exact ⟨_, rfl, rollback_then_park task.id ch.2.id _ ⟨ch.2, hmem, rfl⟩⟩
    · have hrep1 := hfail.resolve_left hp
      simp only [hp, if_false, hrep1, ne_eq, not_false_eq_true, if_true]
      refine ⟨_, rfl, rollback_then_park task.id ch.2.id _ ?_⟩
      refine ⟨if ch.2.id = task.id then
          branch (fun t => decide (t.stat = "working"))
            (pullDonePatch (pullDescriptor ch.2) now) ch.2
        else ch.2, ?_, ?_⟩
      · rw [pullDoneQuery, reqlGetUpdate_fst, List.mem_map]
        exact ⟨ch.2, hmem, rfl⟩
      · unfold branch pullDonePatch
        split <;> [split; skip] <;> rfl

/-- Witness of C8: the pushed row is claimed for a pull-record that was already
cancelled; the row is rolled back to waiting and `taskPull` returns false. -/
theorem pull_rollback_witness :
    goSlice0 pullRecordDone.id 16 = some "node00000001bbbb" ∧
    ∃ s', taskPull 120 pullRecordDone ([] ++ claimTurn :: []) pullStore = some (s', false) ∧
      (∃ u ∈ s', u.id = (rowPushed, pullClaimPatch "node00000001bbbb" rowPushed).2.id) ∧
      ∀ u ∈ s', u.id = (rowPushed, pullClaimPatch "node00000001bbbb" rowPushed).2.id →
        u.stat = "waiting" :=
  ⟨by decide,
   pull_rollback 120 pullRecordDone "node00000001bbbb" [] claimTurn [] pullStore
     (rowPushed, pullClaimPatch "node00000001bbbb" rowPushed)
     (by decide) (fun c hc => absurd hc (List.not_mem_nil c)) rfl (by decide) (by decide)
     (Or.inr (by decide))⟩

/-! ### The half of C1 that holds: a done row is never without an outcome -/

theorem hasOutcome_of_not_done (t : Task) (h : t.stat ≠ "done") : hasOutcome t :=
  fun hd => absurd hd h

theorem hasOutcome_branch (c : Task → Bool) (f : Task → Task) (hf : ∀ t, hasOutcome (f t))
    (t : Task) (ht : hasOutcome t) : hasOutcome (branch c f t) := by
  unfold branch
  split
  · exact hf t
  · exact ht

theorem hasOutcome_reqlUpdate (sel : Task → Bool) (f : Task → Task)
    (hf : ∀ t, hasOutcome t → hasOutcome (f t)) (s : Store) (hs : ∀ t ∈ s, hasOutcome t) :
    ∀ u ∈ (reqlUpdate sel f s).1, hasOutcome u := by
  intro u hu
  rw [reqlUpdate_fst, List.mem_map] at hu
  obtain ⟨t, ht, rfl⟩ := hu
  split
  · exact hf t (hs t ht)
  · exact hs t ht

theorem hasOutcome_reqlGetUpdate (id : String) (f : Task → Task)
    (hf : ∀ t, hasOutcome t → hasOutcome (f t)) (s : Store) (hs : ∀ t ∈ s, hasOutcome t) :
    ∀ u ∈ (reqlGetUpdate id f s).1, hasOutcome u := by
  intro u hu
  rw [reqlGetUpdate_fst, List.mem_map] at hu
  obtain ⟨t, ht, rfl⟩ := hu
  split
  · exact hf t (hs t ht)
  · exact hs t ht

theorem hasOutcome_claimQuery (pfx : String) (m : Matcher) (sample : Option String) (s : Store)
    (hs : ∀ t ∈ s, hasOutcome t) : ∀ u ∈ (claimQuery pfx m.patch sample s).1, hasOutcome u := by
  cases sample with
  | none => exact hs
  | some id =>
    apply hasOutcome_reqlUpdate _ _ _ s hs
    intro t ht
    apply hasOutcome_branch _ _ _ t ht
    intro t
    apply hasOutcome_of_not_done
    cases m <;> simp [Matcher.patch, pullClaimPatch, wakeupClaimPatch]

theorem hasOutcome_parkQuery (id : String) (s : Store) (hs : ∀ t ∈ s, hasOutcome t) :
    ∀ u ∈ (parkQuery id s).1, hasOutcome u := by
  apply hasOutcome_reqlGetUpdate _ _ _ s hs
  intro t ht
  apply hasOutcome_branch _ _ _ t ht
  intro t
  apply hasOutcome_of_not_done
  simp [waitingPatch]

theorem hasOutcome_rollbackQuery (id : String) (s : Store) (hs : ∀ t ∈ s, hasOutcome t) :
    ∀ u ∈ (rollbackQuery id s).1, hasOutcome u := by
  apply hasOutcome_reqlGetUpdate _ _ _ s hs
  intro t _
  apply hasOutcome_of_not_done
  simp [waitingPatch]

theorem hasOutcome_pullDoneQuery (id : String) (d : Dyn) (now : Int) (s : Store)
    (hs : ∀ t ∈ s, hasOutcome t) : ∀ u ∈ (pullDoneQuery id d now s).1, hasOutcome u := by
  apply hasOutcome_reqlGetUpdate _ _ _ s hs
  intro t ht
  apply hasOutcome_branch _ _ _ t ht
  intro t _
  exact Or.inl (by simp [pullDonePatch])

theorem hasOutcome_taskPull (now : Int) (task : Task) (turns : List PullTurn) (s s' : Store)
    (b : Bool) (hs : ∀ t ∈ s, hasOutcome t) (h : taskPull now task turns s = some (s', b)) :
    ∀ u ∈ s', hasOutcome u := by
  induction turns generalizing s with
  | nil => simp [taskPull] at h
  | cons o os ih =>
    unfold taskPull at h
    cases hid : goSlice0 task.id 16 with
    | none => simp [hid] at h
    | some tses =>
      simp only [hid] at h
      have hw := hasOutcome_claimQuery (pullPrefix task) (Matcher.pull tses) o.sample s hs
      simp only [Matcher.patch] at hw
      split at h
      · simp only [Option.some.injEq, Prod.mk.injEq] at h
        rw [← h.1]
        exact hasOutcome_parkQuery _ _ hs
      · split at h
        · split at h
          · simp at h
          · split at h
            · simp only [Option.some.injEq, Prod.mk.injEq] at h
              rw [← h.1]
              exact hasOutcome_parkQuery _ _ (hasOutcome_rollbackQuery _ _ hw)
            · split at h
              · simp only [Option.some.injEq, Prod.mk.injEq] at h
                rw [← h.1]
                exact hasOutcome_parkQuery _ _
                  (hasOutcome_rollbackQuery _ _ (hasOutcome_pullDoneQuery _ _ _ _ hw))
              · simp only [Option.some.injEq, Prod.mk.injEq] at h
                rw [← h.1]
                exact hasOutcome_pullDoneQuery _ _ _ _ hw
        · split at h
          · exact ih _ hw h
          · simp only [Option.some.injEq, Prod.mk.injEq] at h
            rw [← h.1]
            exact hasOutcome_parkQuery _ _ hw

theorem hasOutcome_taskWakeup (task : Task) (turns : List WakeTurn) (s s' : Store) (b : Bool)
    (hs : ∀ t ∈ s, hasOutcome t) (h : taskWakeup task turns s = some (s', b)) :
    ∀ u ∈ s', hasOutcome u := by
  induction turns generalizing s with
  | nil => simp [taskWakeup] at h
  | cons o os ih =>
    unfold taskWakeup at h
    have hw := hasOutcome_claimQuery ("@pull." ++ task.path) Matcher.wakeup o.sample s hs
    simp only [Matcher.patch] at hw
    split at h
    · simp only [Option.some.injEq, Prod.mk.injEq] at h
      rw [← h.1]
      exact hs
    · dsimp only at h
      split at h
      · simp only [Option.some.injEq, Prod.mk.injEq] at h
        rw [← h.1]
        exact hw
      · split at h
        · exact ih _ hw h
        · simp only [Option.some.injEq, Prod.mk.injEq] at h
          rw [← h.1]
          exact hw

theorem hasOutcome_insert (t : Task) (ht : t.stat ≠ "done") (dbErr : Bool) (s s2 : Store)
    (hs : ∀ u ∈ s, hasOutcome u) (h : (if dbErr then none else reqlInsert t s) = some s2) :
    ∀ u ∈ s2, hasOutcome u := by
  cases dbErr with
  | true => simp at h
  | false =>
    simp only [Bool.false_eq_true, if_false, reqlInsert] at h
    split at h
    · simp at h
    · simp only [Option.some.injEq] at h
      subst h
      intro u hu
      rw [List.mem_append, List.mem_singleton] at hu
      rcases hu with hu | hu
      · exact hs u hu
      · subst hu
        exact hasOutcome_of_not_done _ ht

theorem hasOutcome_replyReplaced (E : Env) (req : JsonRpcReq) (dbErr : Bool)
    (w : Store × WriteRes) (s : Store) (hs : ∀ u ∈ s, hasOutcome u)
    (hw : ∀ u ∈ w.1, hasOutcome u) : ∀ u ∈ (replyReplaced E req dbErr w s).1, hasOutcome u := by
  unfold replyReplaced
  split
  · exact hs
  · split
    · exact hw
    · exact hw

theorem hasOutcome_handleTaskReq (E : Env) (nc : NexusConn) (req : JsonRpcReq) (now : Int)
    (rnd10 : String) (dbErr : Bool) (s : Store) (hs : ∀ u ∈ s, hasOutcome u) :
    ∀ u ∈ (handleTaskReq E nc req now rnd10 dbErr s).1, hasOutcome u := by
  unfold handleTaskReq
  split
  · split
    · exact hs
    · split
      · exact hs
      · dsimp only
        split
        · exact hs
        · split
          · exact hs
          · rename_i s2 heq
            exact hasOutcome_insert _ (by simp [pushTask]) dbErr s s2 hs heq
  · split
    · split
      · exact hs
      · dsimp only
        split
        · exact hs
        · split <;>
          · split
            · exact hs
            · split
              · exact hs
              · rename_i s2 heq
                exact hasOutcome_insert _ (by simp [pullTask]) dbErr s s2 hs heq
    · split
      · apply hasOutcome_replyReplaced _ _ _ _ _ hs
        apply hasOutcome_reqlUpdate _ _ _ s hs
        intro t ht
        apply hasOutcome_branch _ _ _ t ht
        intro t _
        exact Or.inr (by simp [cancelPatch])
      · split
        · apply hasOutcome_replyReplaced _ _ _ _ _ hs
          apply hasOutcome_reqlGetUpdate _ _ _ s hs
          intro t _ _
          exact Or.inl (by simp [resultPatch])
        · split
          · apply hasOutcome_replyReplaced _ _ _ _ _ hs
            apply hasOutcome_reqlGetUpdate _ _ _ s hs
            intro t _ _
            exact Or.inr (by simp [errorPatch])
          · exact hs

theorem hasOutcome_taskPurgeTick (E : Env) (now1 now2 : Int) (s : Store)
    (hs : ∀ u ∈ s, hasOutcome u) : ∀ u ∈ taskPurgeTick E now1 now2 s, hasOutcome u := by
  intro u hu
  have hu1 : u ∈ (purgeUpdate E now1 s).1 := by
    unfold taskPurgeTick purgeDelete reqlDelete at hu
    exact (List.mem_filter.1 hu).1
  unfold purgeUpdate at hu1
  refine hasOutcome_reqlUpdate _ _ ?_ s hs u hu1
  intro t ht
  apply hasOutcome_branch _ _ _ t ht
  intro t _
  exact Or.inr (by simp [timeoutPatch])

/-- The half of C1 that holds on the code: in every table reachable from the
empty table by the task operations, a done row has a result or an error code. -/
theorem done_has_outcome (E : Env) (s : Store) (h : Reachable E s) :
    ∀ t ∈ s, t.stat = "done" → t.result ≠ none ∨ t.errCode ≠ none := by
  have key : ∀ t ∈ s, hasOutcome t := by
    induction h with
    | empty => intro t ht; simp at ht
    | request nc req now rnd10 dbErr s _ ih =>
      exact hasOutcome_handleTaskReq E nc req now rnd10 dbErr s ih
    | pull now task turns s s' b _ hrun ih =>
      exact hasOutcome_taskPull now task turns s s' b ih hrun
    | wakeup task turns s s' b _ hrun ih =>
      exact hasOutcome_taskWakeup task turns s s' b ih hrun
    | purge now1 now2 s _ ih =>
      exact hasOutcome_taskPurgeTick E now1 now2 s ih
  exact key

/-! ### C11 -/

/-- C11 as stated fails: for a done row whose id has fewer than sixteen
characters `Id[0:16]` panics, so `taskTrack` neither notifies nor deletes
although `stat == done`. -/
theorem track_dispatch_counterexample :
    ¬ ∀ (task : Task),
        ((∃ key, goSlice0 task.id 16 = some key ∧
            taskTrackStep { old := none, new := some task } =
              TrackAction.notifyDelete key task) ↔
          task.stat = "done") := by
  intro h
  obtain ⟨key, hk, _⟩ := (h shortIdRow).2 (by decide)
  have hnone : goSlice0 shortIdRow.id 16 = none := by decide
  rw [hnone] at hk
  cases hk

/-- C11 amended (change-feed dispatch table): for every observed new value,
`taskTrack` notifies under `id[0:16]` and deletes the row exactly when
`stat == done` and the id has at least sixteen characters (with a shorter id
and `stat == done` it panics); it invokes `taskPull` exactly when
`stat == working` and the path starts with `@pull.`; it invokes `taskWakeup`
exactly when `stat == waiting` and the path does not start with `@pull.`; and
it takes no action in every other case. -/
theorem track_dispatch (old : Option Task) (task : Task) :
    (∀ key t, taskTrackStep { old := old, new := some task } = TrackAction.notifyDelete key t ↔
      (task.stat = "done" ∧ goSlice0 task.id 16 = some key ∧ t = task)) ∧
    (task.stat = "done" → 16 ≤ task.id.length →
      taskTrackStep { old := old, new := some task } =
        TrackAction.notifyDelete (String.mk (task.id.data.take 16)) task) ∧
    (taskTrackStep { old := old, new := some task } = TrackAction.panics ↔
      (task.stat = "done" ∧ task.id.length < 16)) ∧
    (∀ t, taskTrackStep { old := old, new := some task } = TrackAction.pull t ↔
      (task.stat = "working" ∧ hasPrefix task.path "@pull." = true ∧ t = task)) ∧
    (∀ t, taskTrackStep { old := old, new := some task } = TrackAction.wakeup t ↔
      (task.stat = "waiting" ∧ hasPrefix task.path "@pull." = false ∧ t = task)) ∧
    (taskTrackStep { old := old, new := some task } = TrackAction.nothing ↔
      (task.stat ≠ "done" ∧
       ¬ (task.stat = "working" ∧ hasPrefix task.path "@pull." = true) ∧
       ¬ (task.stat = "waiting" ∧ hasPrefix task.path "@pull." = false))) := by
  by_cases hd : task.stat = "done"
  · by_cases hlen : task.id.length < 16
    · have hstep : taskTrackStep { old := old, new := some task } = TrackAction.panics := by
        simp [taskTrackStep, hd, goSlice0, hlen]
      have hs : goSlice0 task.id 16 = none := by simp [goSlice0, hlen]
      rw [hstep]
      simp [hd, hlen, hs]
    · have hs : goSlice0 task.id 16 = some (String.mk (task.id.data.take 16)) := by
        simp [goSlice0, hlen]
      have hstep : taskTrackStep { old := old, new := some task } =
          TrackAction.notifyDelete (String.mk (task.id.data.take 16)) task := by
        simp [taskTrackStep, hd, hs]
      rw [hstep]
      simp [hd, hlen, hs]
      intro key t _
      exact eq_comm
  · by_cases hw : task.stat = "working"
    · by_cases hp : hasPrefix task.path "@pull." = true
      · have hstep : taskTrackStep { old := old, new := some task } = TrackAction.pull task := by
          simp [taskTrackStep, hw, hp]
        rw [hstep]
        simp [hw, hp]
        intro t
        exact eq_comm
      · have hstep : taskTrackStep { old := old, new := some task } = TrackAction.nothing := by
          simp [taskTrackStep, hw, hp]
        rw [hstep]
        simp [hw, hp]
    · by_cases hwa : task.stat = "waiting"
      · by_cases hp : hasPrefix task.path "@pull." = true
        · have hstep : taskTrackStep { old := old, new := some task } = TrackAction.nothing := by
            simp [taskTrackStep, hwa, hp]
          rw [hstep]
          simp [hwa, hp]
        · have hstep : taskTrackStep { old := old, new := some task } =
              TrackAction.wakeup task := by
            simp [taskTrackStep, hwa, hp]
          rw [hstep]
          simp [hwa, hp]
          intro t
          exact eq_comm
      · have hstep : taskTrackStep { old := old, new := some task } = TrackAction.nothing := by
          simp [taskTrackStep, hd, hw, hwa]
        rw [hstep]
        simp [hd, hw, hwa]

/-! ### C12 -/

theorem taskTrack_at_ten (rest : List FeedOpen) :
    taskTrack 10 rest = { ending := TrackEnd.gaveUp, attempts := 0, actions := [] } := by
  cases rest with
  | nil => simp [taskTrack]
  | cons o os => cases o <;> simp [taskTrack]

theorem taskTrack_failed (retry : Nat) (rest : List FeedOpen) (hr : retry < 10) :
    taskTrack retry (FeedOpen.failed :: rest) =
      { ending := (taskTrack (retry + 1) rest).ending,
        attempts := (taskTrack (retry + 1) rest).attempts + 1,
        actions := (taskTrack (retry + 1) rest).actions } := by
  simp [taskTrack, hr]

theorem taskTrack_opened (retry : Nat) (items : List TaskFeed) (rest : List FeedOpen)
    (hr : retry < 10) (hp : (feedLoop items).2 = false) :
    taskTrack retry (FeedOpen.opened items :: rest) =
      { ending := (taskTrack 1 rest).ending,
        attempts := (taskTrack 1 rest).attempts + 1,
        actions := (feedLoop items).1 ++ (taskTrack 1 rest).actions } := by
  simp [taskTrack, hr, hp]

/-- Entered with `retry`, the loop gives up after exactly `10 - retry` failed
opens in a row, whatever would come next. -/
theorem taskTrack_failures (retry k : Nat) (rest : List FeedOpen) (h : retry + k = 10) :
    taskTrack retry (List.replicate k FeedOpen.failed ++ rest) =
      { ending := TrackEnd.gaveUp, attempts := k, actions := [] } := by
  induction k generalizing retry with
  | zero =>
    have hr : retry = 10 := by omega
    subst hr
    simpa using taskTrack_at_ten rest
  | succ k ih =>
    have hr : retry < 10 := by omega
    have hrec := ih (retry + 1) (by omega)
    rw [List.replicate_succ, List.cons_append, taskTrack_failed _ _ hr, hrec]

/-- Entered with `retry`, the loop is still running after fewer than
`10 - retry` failed opens in a row. -/
theorem taskTrack_still_running (retry k : Nat) (h : retry + k < 10) :
    taskTrack retry (List.replicate k FeedOpen.failed) =
      { ending := TrackEnd.running, attempts := k, actions := [] } := by
  induction k generalizing retry with
  | zero =>
    have hr : retry < 10 := by omega
    simp [taskTrack, hr]
  | succ k ih =>
    have hr : retry < 10 := by omega
    have hrec := ih (retry + 1) (by omega)
    rw [List.replicate_succ, taskTrack_failed _ _ hr, hrec]

/-- After a successful open whose feed ended without a panic, nine failed opens
in a row make the loop give up, and fewer do not: the post statement `retry++`
that follows the inner loop has already used one of the ten. -/
theorem taskTrack_after_success (retry : Nat) (items : List TaskFeed) (rest : List FeedOpen)
    (hr : retry < 10) (hp : (feedLoop items).2 = false) :
    taskTrack retry (FeedOpen.opened items :: (List.replicate 9 FeedOpen.failed ++ rest)) =
      { ending := TrackEnd.gaveUp, attempts := 10, actions := (feedLoop items).1 } ∧
    ∀ k, k < 9 →
      taskTrack retry (FeedOpen.opened items :: List.replicate k FeedOpen.failed) =
        { ending := TrackEnd.running, attempts := k + 1, actions := (feedLoop items).1 } := by
  constructor
  · have h9 := taskTrack_failures 1 9 rest (by omega)
    rw [taskTrack_opened _ _ _ hr hp, h9, List.append_nil]
  · intro k hk
    have hk1 := taskTrack_still_running 1 k (by omega)
    rw [taskTrack_opened _ _ _ hr hp, hk1, List.append_nil]

/-- C12 fails on the code after a success: from the start the loop gives up
after ten failed opens in a row and not after nine, but once the feed has been
opened (here it delivers the pushed row, for which `taskWakeup` is invoked, and
then ends), nine failed opens in a row already make it give up. -/
theorem retry_budget_off_by_one :
    taskTrack 0 (List.replicate 10 FeedOpen.failed) =
      { ending := TrackEnd.gaveUp, attempts := 10, actions := [] } ∧
    (taskTrack 0 (List.replicate 9 FeedOpen.failed)).ending = TrackEnd.running ∧
    taskTrack 0 (feedOnceThenDown 9) =
      { ending := TrackEnd.gaveUp, attempts := 10,
        actions := [TrackAction.wakeup (pluck rowPushed)] } ∧
    (taskTrack 0 (feedOnceThenDown 8)).ending = TrackEnd.running := by
  refine ⟨by decide, by decide, by decide, by decide⟩

end Nexus
